import Mathlib

/-!
Verification development for the conda-config repository.

The Python sources under src/conda_config are shallowly embedded below:

* Python runtime values that appear in configuration data are modelled by
  the inductive type PyValue (floats are modelled as rationals; only
  equality of float literals is ever needed).
* Python dicts with string keys are modelled as insertion-ordered
  association lists together with the operations that the source uses
  (lookup, item assignment, pop, update, dict.fromkeys-deduplication).
* pydantic model construction (CondarcConfig(**raw)) is modelled by
  validateConfig: every declared field of the schema table condarcFields
  is looked up in the raw mapping, coerced to its declared type, and
  defaulted when absent; per-field failures are collected in declaration
  order, as pydantic does.  The environment-variable fallback of
  pydantic BaseSettings is modelled as an empty environment, matching
  the way the tests of the repository exercise the model.
-/

/-- Model of the Python runtime values that occur in configuration data. -/
inductive PyValue where
  | none
  | bool (b : Bool)
  | int (n : Int)
  | float (q : Rat)
  | str (s : String)
  | tuple (xs : List PyValue)
  | list (xs : List PyValue)
  | dict (m : List (String × PyValue))

mutual

/-- Structural equality of PyValue (Python `==` on configuration data). -/
def pyBeq : PyValue → PyValue → Bool
  | PyValue.none, PyValue.none => true
  | PyValue.bool x, PyValue.bool y => x = y
  | PyValue.int x, PyValue.int y => x = y
  | PyValue.float x, PyValue.float y => x = y
  | PyValue.str x, PyValue.str y => x = y
  | PyValue.tuple xs, PyValue.tuple ys => pyBeqList xs ys
  | PyValue.list xs, PyValue.list ys => pyBeqList xs ys
  | PyValue.dict xs, PyValue.dict ys => pyBeqDict xs ys
  | _, _ => false

/-- Elementwise equality of lists of PyValue. -/
def pyBeqList : List PyValue → List PyValue → Bool
  | [], [] => true
  | x :: xs, y :: ys => pyBeq x y && pyBeqList xs ys
  | _, _ => false

/-- Entrywise equality of string-keyed dicts of PyValue. -/
def pyBeqDict : List (String × PyValue) → List (String × PyValue) → Bool
  | [], [] => true
  | (k, v) :: xs, (k2, v2) :: ys =>
    (k = k2 : Bool) && pyBeq v v2 && pyBeqDict xs ys
  | _, _ => false

end

mutual

def pyBeq_refl : ∀ a, pyBeq a a = true
  | PyValue.none => rfl
  | PyValue.bool x => by simp [pyBeq]
  | PyValue.int x => by simp [pyBeq]
  | PyValue.float x => by simp [pyBeq]
  | PyValue.str x => by simp [pyBeq]
  | PyValue.tuple xs => by simp [pyBeq, pyBeqList_refl xs]
  | PyValue.list xs => by simp [pyBeq, pyBeqList_refl xs]
  | PyValue.dict xs => by simp [pyBeq, pyBeqDict_refl xs]

def pyBeqList_refl : ∀ xs, pyBeqList xs xs = true
  | [] => rfl
  | x :: xs => by simp [pyBeqList, pyBeq_refl x, pyBeqList_refl xs]

def pyBeqDict_refl : ∀ xs, pyBeqDict xs xs = true
  | [] => rfl
  | (k, v) :: xs => by simp [pyBeqDict, pyBeq_refl v, pyBeqDict_refl xs]

end

mutual

def pyBeq_sound : ∀ a b, pyBeq a b = true → a = b
  | PyValue.none, b, h => by cases b <;> simp [pyBeq] at h ⊢
  | PyValue.bool x, b, h => by cases b <;> simp [pyBeq] at h ⊢; exact h
  | PyValue.int x, b, h => by cases b <;> simp [pyBeq] at h ⊢; exact h
  | PyValue.float x, b, h => by cases b <;> simp [pyBeq] at h ⊢; exact h
  | PyValue.str x, b, h => by cases b <;> simp [pyBeq] at h ⊢; exact h
  | PyValue.tuple xs, b, h => by
    cases b <;> simp [pyBeq] at h ⊢
    case tuple ys => exact pyBeqList_sound xs ys h
  | PyValue.list xs, b, h => by
    cases b <;> simp [pyBeq] at h ⊢
    case list ys => exact pyBeqList_sound xs ys h
  | PyValue.dict xs, b, h => by
    cases b <;> simp [pyBeq] at h ⊢
    case dict ys => exact pyBeqDict_sound xs ys h

def pyBeqList_sound : ∀ xs ys, pyBeqList xs ys = true → xs = ys
  | [], [], _ => rfl
  | [], _ :: _, h => by simp [pyBeqList] at h
  | _ :: _, [], h => by simp [pyBeqList] at h
  | x :: xs, y :: ys, h => by
    simp only [pyBeqList, Bool.and_eq_true] at h
    rw [pyBeq_sound x y h.1, pyBeqList_sound xs ys h.2]

def pyBeqDict_sound :
    ∀ xs ys, pyBeqDict xs ys = true → xs = ys
  | [], [], _ => rfl
  | [], _ :: _, h => by simp [pyBeqDict] at h
  | _ :: _, [], h => by simp [pyBeqDict] at h
  | (k, v) :: xs, (k2, v2) :: ys, h => by
    simp only [pyBeqDict, Bool.and_eq_true, decide_eq_true_eq] at h
    rw [h.1.1, pyBeq_sound v v2 h.1.2, pyBeqDict_sound xs ys h.2]

end

instance : DecidableEq PyValue := fun a b =>
  if h : pyBeq a b = true then Decidable.isTrue (pyBeq_sound a b h)
  else Decidable.isFalse (fun e => h (e ▸ pyBeq_refl a))

/-- Python dict lookup `d.get(k)` / `d[k]` on a string-keyed dict. -/
def pyLookup {α : Type} (d : List (String × α)) (k : String) : Option α :=
  match d with
  | [] => Option.none
  | (k2, v) :: rest => if k2 = k then Option.some v else pyLookup rest k

/-- Python dict item assignment `d[k] = v`: an existing key keeps its
position and gets the new value, a new key is appended at the end. -/
def pyDictSet {α : Type} (d : List (String × α)) (k : String) (v : α) :
    List (String × α) :=
  match d with
  | [] => [(k, v)]
  | (k2, v2) :: rest =>
    if k2 = k then (k, v) :: rest else (k2, v2) :: pyDictSet rest k v

/-- Python `d.pop(k)` (the removal part): drops the entry for `k`. -/
def pyDictPop {α : Type} (d : List (String × α)) (k : String) :
    List (String × α) :=
  match d with
  | [] => []
  | (k2, v2) :: rest =>
    if k2 = k then rest else (k2, v2) :: pyDictPop rest k

/-- Python `d.update(other)`: item assignment for every entry of `other`,
in order. -/
def pyDictUpdate {α : Type} (d other : List (String × α)) :
    List (String × α) :=
  other.foldl (fun acc kv => pyDictSet acc kv.1 kv.2) d

/-- Worker for pyDedup, carrying the set of already seen values. -/
def pyDedupAux (seen : List PyValue) : List PyValue → List PyValue
  | [] => []
  | x :: xs =>
    if x ∈ seen then pyDedupAux seen xs else x :: pyDedupAux (x :: seen) xs

/-- The deduplication `dict.fromkeys` performs on hashable values: keeps
the first occurrence of every value, preserving first-seen order.  Used
directly for the channels property, whose CLI interface supplies string
channel values; merge_condarc goes through pyFromKeys below, which also
models the TypeError that `dict.fromkeys` raises on an unhashable
(mapping) element. -/
def pyDedup (xs : List PyValue) : List PyValue :=
  pyDedupAux [] xs

mutual

/-- Python hashability of a configuration value: scalars are hashable, a
tuple is hashable when all of its elements are, lists and dicts are
not. -/
def pyHashable : PyValue → Bool
  | PyValue.none => true
  | PyValue.bool _ => true
  | PyValue.int _ => true
  | PyValue.float _ => true
  | PyValue.str _ => true
  | PyValue.tuple xs => pyHashableList xs
  | PyValue.list _ => false
  | PyValue.dict _ => false

/-- Hashability of every element of a list of values. -/
def pyHashableList : List PyValue → Bool
  | [] => true
  | x :: xs => pyHashable x && pyHashableList xs

end

/-- Python `tuple(dict.fromkeys(xs))` as merge_condarc runs it:
`dict.fromkeys` hashes every element, raising TypeError — modelled as
Option.none — when one is unhashable (e.g. a mapping-shaped channels
entry), and otherwise keeps the first occurrence of every value in
first-seen order. -/
def pyFromKeys (xs : List PyValue) : Option (List PyValue) :=
  if pyHashableList xs then Option.some (pyDedup xs) else Option.none

/-- Whether a value, if it is a tuple, holds only hashable elements (a
non-tuple trivially satisfies this). -/
def tupleElemsHashable : PyValue → Bool
  | PyValue.tuple xs => pyHashableList xs
  | _ => true

/-- Python truthiness of a value (`if value:`). -/
def truthy : PyValue → Bool
  | PyValue.none => false
  | PyValue.bool b => b
  | PyValue.int n => n ≠ 0
  | PyValue.float q => q ≠ 0
  | PyValue.str s => s ≠ ""
  | PyValue.tuple xs => ¬ xs.isEmpty
  | PyValue.list xs => ¬ xs.isEmpty
  | PyValue.dict m => ¬ m.isEmpty

/-- The elements of a Python sequence value (`*value` unpacking and
`tuple(value)` on a tuple or list); other values contribute nothing here,
the source only ever unpacks sequences. -/
def pyElems : PyValue → List PyValue
  | PyValue.tuple xs => xs
  | PyValue.list xs => xs
  | _ => []

/-- Python `sep.join(parts)`. -/
def joinSep (sep : String) : List String → String
  | [] => ""
  | [x] => x
  | x :: y :: ys => x ++ sep ++ joinSep sep (y :: ys)

/-- Boolean infix test on lists (used to model the Python substring test
`needle in haystack` on strings). -/
def listIsInfixB {α : Type} [DecidableEq α] (needle : List α) :
    List α → Bool
  | [] => needle.isEmpty
  | a :: rest => needle.isPrefixOf (a :: rest) || listIsInfixB needle rest

/-- Python `needle in haystack` for strings (substring containment). -/
def strContainsB (haystack needle : String) : Bool :=
  listIsInfixB needle.toList haystack.toList

/-- The declared type of a schema field of CondarcConfig
(src/conda_config/condarc.py).  Fields annotated with a plain scalar type
but default None are implicitly optional, as in pydantic v1. -/
inductive FieldType where
  | tBool
  | tBoolOpt
  | tInt
  | tIntOrBool
  | tFloat
  | tStr
  | tStrOpt
  | tEnum (permitted : List String)
  | tTupleStr
  | tChannels
  | tDictStr
  | tDictTupleStr
  | tDictAny
  deriving DecidableEq

/-- One declared configuration field: canonical name, declared type and
schema default (condarc.py, class CondarcConfig). -/
structure SchemaField where
  name : String
  ftype : FieldType
  default : PyValue
  deriving DecidableEq

/-- The schema table of CondarcConfig, in declaration order
(src/conda_config/condarc.py lines 119-830). -/
def condarcFields : List SchemaField := [
  ⟨"channels", FieldType.tChannels, PyValue.tuple [PyValue.str "defaults"]⟩,
  ⟨"channel_alias", FieldType.tStr, PyValue.str "https://conda.anaconda.org"⟩,
  ⟨"default_channels", FieldType.tTupleStr, PyValue.tuple
    [PyValue.str "https://repo.anaconda.com/pkgs/main",
     PyValue.str "https://repo.anaconda.com/pkgs/r"]⟩,
  ⟨"override_channels_enabled", FieldType.tBool, PyValue.bool true⟩,
  ⟨"use_local", FieldType.tBool, PyValue.bool false⟩,
  ⟨"allowlist_channels", FieldType.tTupleStr, PyValue.tuple []⟩,
  ⟨"custom_channels", FieldType.tDictStr, PyValue.dict
    [("pkgs/pro", PyValue.str "https://repo.anaconda.com")]⟩,
  ⟨"custom_multichannels", FieldType.tDictTupleStr, PyValue.dict []⟩,
  ⟨"migrated_channel_aliases", FieldType.tTupleStr, PyValue.tuple []⟩,
  ⟨"migrated_custom_channels", FieldType.tDictStr, PyValue.dict []⟩,
  ⟨"add_anaconda_token", FieldType.tBool, PyValue.bool true⟩,
  ⟨"allow_non_channel_urls", FieldType.tBool, PyValue.bool false⟩,
  ⟨"restore_free_channel", FieldType.tBool, PyValue.bool false⟩,
  ⟨"repodata_fns", FieldType.tTupleStr, PyValue.tuple
    [PyValue.str "current_repodata.json", PyValue.str "repodata.json"]⟩,
  ⟨"use_only_tar_bz2", FieldType.tBoolOpt, PyValue.none⟩,
  ⟨"repodata_threads", FieldType.tInt, PyValue.int 0⟩,
  ⟨"envs_dirs", FieldType.tTupleStr, PyValue.tuple []⟩,
  ⟨"pkgs_dirs", FieldType.tTupleStr, PyValue.tuple []⟩,
  ⟨"default_threads", FieldType.tInt, PyValue.int 0⟩,
  ⟨"client_ssl_cert", FieldType.tStrOpt, PyValue.none⟩,
  ⟨"client_ssl_cert_key", FieldType.tStrOpt, PyValue.none⟩,
  ⟨"local_repodata_ttl", FieldType.tIntOrBool, PyValue.int 1⟩,
  ⟨"offline", FieldType.tBool, PyValue.bool false⟩,
  ⟨"proxy_servers", FieldType.tDictStr, PyValue.dict []⟩,
  ⟨"remote_connect_timeout_secs", FieldType.tFloat, PyValue.float 9.15⟩,
  ⟨"remote_max_retries", FieldType.tInt, PyValue.int 3⟩,
  ⟨"remote_backoff_factor", FieldType.tInt, PyValue.int 1⟩,
  ⟨"remote_read_timeout_secs", FieldType.tFloat, PyValue.float 60.0⟩,
  ⟨"ssl_verify", FieldType.tBool, PyValue.bool true⟩,
  ⟨"aggressive_update_packages", FieldType.tTupleStr, PyValue.tuple
    [PyValue.str "ca-certificates", PyValue.str "certifi",
     PyValue.str "openssl"]⟩,
  ⟨"auto_update_conda", FieldType.tBool, PyValue.bool true⟩,
  ⟨"channel_priority", FieldType.tEnum ["flexible", "strict", "disabled"],
    PyValue.str "flexible"⟩,
  ⟨"create_default_packages", FieldType.tTupleStr, PyValue.tuple []⟩,
  ⟨"disallowed_packages", FieldType.tTupleStr, PyValue.tuple []⟩,
  ⟨"force_reinstall", FieldType.tBool, PyValue.bool false⟩,
  ⟨"pinned_packages", FieldType.tTupleStr, PyValue.tuple []⟩,
  ⟨"pip_interop_enabled", FieldType.tBool, PyValue.bool false⟩,
  ⟨"track_features", FieldType.tTupleStr, PyValue.tuple []⟩,
  ⟨"solver", FieldType.tStr, PyValue.str "classic"⟩,
  ⟨"allow_softlinks", FieldType.tBool, PyValue.bool false⟩,
  ⟨"always_copy", FieldType.tBool, PyValue.bool false⟩,
  ⟨"always_softlink", FieldType.tBool, PyValue.bool false⟩,
  ⟨"path_conflict", FieldType.tEnum ["clobber", "warn", "prevent"],
    PyValue.str "clobber"⟩,
  ⟨"rollback_enabled", FieldType.tBool, PyValue.bool true⟩,
  ⟨"safety_checks", FieldType.tEnum ["warn", "enabled", "disabled"],
    PyValue.str "warn"⟩,
  ⟨"extra_safety_checks", FieldType.tBool, PyValue.bool false⟩,
  ⟨"signing_metadata_url_base", FieldType.tStrOpt, PyValue.none⟩,
  ⟨"shortcuts", FieldType.tBool, PyValue.bool true⟩,
  ⟨"non_admin_enabled", FieldType.tBool, PyValue.bool true⟩,
  ⟨"separate_format_cache", FieldType.tBool, PyValue.bool false⟩,
  ⟨"verify_threads", FieldType.tInt, PyValue.int 0⟩,
  ⟨"execute_threads", FieldType.tInt, PyValue.int 0⟩,
  ⟨"bld_path", FieldType.tStr, PyValue.str ""⟩,
  ⟨"croot", FieldType.tStr, PyValue.str ""⟩,
  ⟨"anaconda_upload", FieldType.tBool, PyValue.bool false⟩,
  ⟨"conda_build", FieldType.tDictAny, PyValue.dict []⟩,
  ⟨"always_yes", FieldType.tBool, PyValue.bool false⟩,
  ⟨"auto_activate_base", FieldType.tBool, PyValue.bool true⟩,
  ⟨"auto_stack", FieldType.tInt, PyValue.int 0⟩,
  ⟨"changeps1", FieldType.tBool, PyValue.bool true⟩,
  ⟨"env_prompt", FieldType.tStr, PyValue.str "({default_env})"⟩,
  ⟨"json__", FieldType.tBool, PyValue.bool false⟩,
  ⟨"notify_outdated_conda", FieldType.tBool, PyValue.bool true⟩,
  ⟨"quiet", FieldType.tBool, PyValue.bool false⟩,
  ⟨"report_errors", FieldType.tBool, PyValue.bool false⟩,
  ⟨"show_channel_urls", FieldType.tBoolOpt, PyValue.none⟩,
  ⟨"verbosity", FieldType.tInt, PyValue.int 0⟩,
  ⟨"unsatisfiable_hints", FieldType.tBool, PyValue.bool true⟩,
  ⟨"unsatisfiable_hints_check_depth", FieldType.tInt, PyValue.int 2⟩]

/-- FIELD_ALIASES of condarc.py: alias name to canonical field name, in
the insertion order of the dict. -/
def fieldAliases : List (String × String) := [
  ("channel", "channels"),
  ("add_binstar_token", "add_anaconda_token"),
  ("envs_path", "envs_dirs"),
  ("client_cert", "client_ssl_cert"),
  ("client_cert_key", "client_ssl_cert_key"),
  ("verify_ssl", "ssl_verify"),
  ("self_update", "auto_update_conda"),
  ("disallow", "disallowed_packages"),
  ("copy", "always_copy"),
  ("softlink", "always_softlink"),
  ("binstar_upload", "anaconda_upload"),
  ("conda-build", "conda_build"),
  ("yes", "always_yes"),
  ("json", "json__"),
  ("verbose", "verbosity"),
  ("solver", "experimental_solver")]

/-- remap_aliases (condarc.py): for each alias present in the raw mapping,
pop it and assign its value to the canonical field name. -/
def remapAliases (config : List (String × PyValue)) :
    List (String × PyValue) :=
  fieldAliases.foldl
    (fun cfg al =>
      match pyLookup cfg al.1 with
      | Option.some v => pyDictSet (pyDictPop cfg al.1) al.2 v
      | Option.none => cfg)
    config

/-- One entry of the pydantic ValidationError errors() list: location, message
and (for enum failures) the offending and permitted values. -/
structure FieldError where
  loc : List String
  msg : String
  given : Option String
  permitted : Option (List String)
  deriving DecidableEq

/-- A single-quote character, used by pydantic when rendering permitted
enum values. -/
def squote : String := String.singleton (Char.ofNat 39)

/-- ASCII lower-casing of one character. -/
def charLower (c : Char) : Char :=
  if 65 ≤ c.toNat ∧ c.toNat ≤ 90 then Char.ofNat (c.toNat + 32) else c

/-- ASCII lower-casing of a string (Python str.lower on the inputs that
occur here). -/
def strLower (s : String) : String := ⟨s.data.map charLower⟩

/-- The strings pydantic v1 accepts as boolean True (lower-cased). -/
def boolTrueStrings : List String := ["1", "on", "t", "true", "y", "yes"]

/-- The strings pydantic v1 accepts as boolean False (lower-cased). -/
def boolFalseStrings : List String := ["0", "off", "f", "false", "n", "no"]

/-- pydantic v1 bool coercion. -/
def coerceBool : PyValue → Option Bool
  | PyValue.bool b => Option.some b
  | PyValue.int n =>
    if n = 0 then Option.some false
    else if n = 1 then Option.some true else Option.none
  | PyValue.float q =>
    if q = 0 then Option.some false
    else if q = 1 then Option.some true else Option.none
  | PyValue.str s =>
    let l := strLower s
    if l ∈ boolTrueStrings then Option.some true
    else if l ∈ boolFalseStrings then Option.some false else Option.none
  | _ => Option.none

/-- pydantic v1 int coercion (floats are accepted only when integral;
non-integral floats do not occur in configuration data). -/
def coerceInt : PyValue → Option Int
  | PyValue.int n => Option.some n
  | PyValue.bool b => Option.some (if b then 1 else 0)
  | PyValue.float q => if q.den = 1 then Option.some q.num else Option.none
  | PyValue.str s => s.toInt?
  | _ => Option.none

/-- pydantic v1 float coercion. -/
def coerceFloat : PyValue → Option Rat
  | PyValue.float q => Option.some q
  | PyValue.int n => Option.some n
  | PyValue.bool b => Option.some (if b then 1 else 0)
  | _ => Option.none

/-- pydantic v1 str coercion (numbers are stringified). -/
def coerceStr : PyValue → Option String
  | PyValue.str s => Option.some s
  | PyValue.int n => Option.some (toString n)
  | _ => Option.none

/-- coerceStr, repackaged as a PyValue. -/
def coerceStrV (v : PyValue) : Option PyValue :=
  (coerceStr v).map PyValue.str

/-- Coercion of one element of the channels tuple, whose declared type is
Union[str, Dict[str, Dict[str, str]]]; pydantic tries the union members
left to right. -/
def coerceChannelElem (v : PyValue) : Option PyValue :=
  match coerceStrV v with
  | Option.some w => Option.some w
  | Option.none =>
    match v with
    | PyValue.dict m =>
      (m.mapM (fun (kv : String × PyValue) =>
        match kv.2 with
        | PyValue.dict inner =>
          (inner.mapM (fun (kv2 : String × PyValue) =>
            (coerceStrV kv2.2).map (fun w => (kv2.1, w)))).map
            (fun innerOk => (kv.1, PyValue.dict innerOk))
        | _ => Option.none)).map PyValue.dict
    | _ => Option.none

/-- The elements of a raw sequence (list or tuple) accepted by pydantic
for a tuple-typed field. -/
def seqElems : PyValue → Option (List PyValue)
  | PyValue.tuple xs => Option.some xs
  | PyValue.list xs => Option.some xs
  | _ => Option.none

/-- Rendering of an offending value inside an error context (only its
string form is ever inspected by the error formatter). -/
def pyGivenRepr : PyValue → String
  | PyValue.str s => s
  | PyValue.bool b => if b then "True" else "False"
  | PyValue.int n => toString n
  | _ => ""

/-- The pydantic v1 message for a Literal mismatch, e.g.
listing the permitted values in single quotes. -/
def enumErrorMsg (permitted : List String) : String :=
  "unexpected value; permitted: " ++
    joinSep ", " (permitted.map (fun p => squote ++ p ++ squote))

/-- An error entry without enum context. -/
def plainError (name msg : String) : FieldError :=
  ⟨[name], msg, Option.none, Option.none⟩

/-- The pydantic error for an explicit None on a non-optional field. -/
def noneError (name : String) : FieldError :=
  plainError name "none is not an allowed value"

/-- Validation and coercion of one present field value against its
declared type, following pydantic v1. -/
def coerceField (fld : SchemaField) (v : PyValue) :
    Except FieldError PyValue :=
  match fld.ftype with
  | FieldType.tBool =>
    match v with
    | PyValue.none => Except.error (noneError fld.name)
    | _ =>
      match coerceBool v with
      | Option.some b => Except.ok (PyValue.bool b)
      | Option.none =>
        Except.error
          (plainError fld.name "value could not be parsed to a boolean")
  | FieldType.tBoolOpt =>
    match v with
    | PyValue.none => Except.ok PyValue.none
    | _ =>
      match coerceBool v with
      | Option.some b => Except.ok (PyValue.bool b)
      | Option.none =>
        Except.error
          (plainError fld.name "value could not be parsed to a boolean")
  | FieldType.tInt =>
    match v with
    | PyValue.none => Except.error (noneError fld.name)
    | _ =>
      match coerceInt v with
      | Option.some n => Except.ok (PyValue.int n)
      | Option.none =>
        Except.error (plainError fld.name "value is not a valid integer")
  | FieldType.tIntOrBool =>
    match v with
    | PyValue.none => Except.error (noneError fld.name)
    | _ =>
      match coerceInt v with
      | Option.some n => Except.ok (PyValue.int n)
      | Option.none =>
        match coerceBool v with
        | Option.some b => Except.ok (PyValue.bool b)
        | Option.none =>
          Except.error (plainError fld.name "value is not a valid integer")
  | FieldType.tFloat =>
    match v with
    | PyValue.none => Except.error (noneError fld.name)
    | _ =>
      match coerceFloat v with
      | Option.some q => Except.ok (PyValue.float q)
      | Option.none =>
        Except.error (plainError fld.name "value is not a valid float")
  | FieldType.tStr =>
    match v with
    | PyValue.none => Except.error (noneError fld.name)
    | _ =>
      match coerceStrV v with
      | Option.some w => Except.ok w
      | Option.none =>
        Except.error (plainError fld.name "str type expected")
  | FieldType.tStrOpt =>
    match v with
    | PyValue.none => Except.ok PyValue.none
    | _ =>
      match coerceStrV v with
      | Option.some w => Except.ok w
      | Option.none =>
        Except.error (plainError fld.name "str type expected")
  | FieldType.tEnum permitted =>
    match v with
    | PyValue.none => Except.error (noneError fld.name)
    | PyValue.str s =>
      if s ∈ permitted then Except.ok (PyValue.str s)
      else
        Except.error
          ⟨[fld.name], enumErrorMsg permitted, Option.some s,
            Option.some permitted⟩
    | _ =>
      Except.error
        ⟨[fld.name], enumErrorMsg permitted, Option.some (pyGivenRepr v),
          Option.some permitted⟩
  | FieldType.tTupleStr =>
    match v with
    | PyValue.none => Except.error (noneError fld.name)
    | _ =>
      match seqElems v with
      | Option.some xs =>
        match xs.mapM coerceStrV with
        | Option.some ys => Except.ok (PyValue.tuple ys)
        | Option.none =>
          Except.error (plainError fld.name "str type expected")
      | Option.none =>
        Except.error (plainError fld.name "value is not a valid tuple")
  | FieldType.tChannels =>
    match v with
    | PyValue.none => Except.error (noneError fld.name)
    | _ =>
      match seqElems v with
      | Option.some xs =>
        match xs.mapM coerceChannelElem with
        | Option.some ys => Except.ok (PyValue.tuple ys)
        | Option.none =>
          Except.error (plainError fld.name "str type expected")
      | Option.none =>
        Except.error (plainError fld.name "value is not a valid tuple")
  | FieldType.tDictStr =>
    match v with
    | PyValue.none => Except.error (noneError fld.name)
    | PyValue.dict m =>
      match m.mapM (fun (kv : String × PyValue) =>
          (coerceStrV kv.2).map (fun w => (kv.1, w))) with
      | Option.some m2 => Except.ok (PyValue.dict m2)
      | Option.none => Except.error (plainError fld.name "str type expected")
    | _ => Except.error (plainError fld.name "value is not a valid dict")
  | FieldType.tDictTupleStr =>
    match v with
    | PyValue.none => Except.error (noneError fld.name)
    | PyValue.dict m =>
      match m.mapM (fun (kv : String × PyValue) =>
        match seqElems kv.2 with
        | Option.some xs =>
          (xs.mapM coerceStrV).map (fun ys => (kv.1, PyValue.tuple ys))
        | Option.none => Option.none) with
      | Option.some m2 => Except.ok (PyValue.dict m2)
      | Option.none =>
        Except.error (plainError fld.name "value is not a valid tuple")
    | _ => Except.error (plainError fld.name "value is not a valid dict")
  | FieldType.tDictAny =>
    match v with
    | PyValue.none => Except.error (noneError fld.name)
    | PyValue.dict m => Except.ok (PyValue.dict m)
    | _ => Except.error (plainError fld.name "value is not a valid dict")

/-- Validation of one schema field of a raw mapping: a present value is
coerced, an absent field takes its schema default (pydantic fills
defaults at construction time; the BaseSettings environment fallback is
modelled as an empty environment). -/
def validateField (raw : List (String × PyValue)) (fld : SchemaField) :
    Except FieldError PyValue :=
  match pyLookup raw fld.name with
  | Option.some v => coerceField fld v
  | Option.none => Except.ok fld.default

/-- The error part of an Except. -/
def exceptErr {ε α : Type} : Except ε α → Option ε
  | Except.error e => Option.some e
  | Except.ok _ => Option.none

/-- All per-field validation errors of a raw mapping, in field
declaration order, as pydantic collects them. -/
def validateErrors (raw : List (String × PyValue)) : List FieldError :=
  condarcFields.filterMap (fun fld => exceptErr (validateField raw fld))

/-- A typed configuration fragment (a CondarcConfig instance): a total
assignment of values to field names.  Names outside the schema table are
mapped to PyValue.none; they are never consulted, since attribute access
on the pydantic object is guarded by hasattr on field names. -/
def Config : Type := String → PyValue

/-- The CondarcConfig instance resulting from a successfully validated
raw mapping. -/
def configFromRaw (raw : List (String × PyValue)) : Config :=
  fun name =>
    match condarcFields.find? (fun fld => fld.name = name) with
    | Option.some fld =>
      match validateField raw fld with
      | Except.ok v => v
      | Except.error _ => fld.default
    | Option.none => PyValue.none

/-- CondarcConfig(**raw): validates every schema field of the raw
mapping; on any failure the whole construction fails with the collected
per-field errors (the pydantic ValidationError). -/
def validateConfig (raw : List (String × PyValue)) :
    Except (List FieldError) Config :=
  if validateErrors raw = [] then Except.ok (configFromRaw raw)
  else Except.error (validateErrors raw)

/-- obj.dict() on a CondarcConfig instance: every schema field with its
current value, in declaration order. -/
def configDict (c : Config) : List (String × PyValue) :=
  condarcFields.map (fun fld => (fld.name, c fld.name))

/-- Whether a name is a declared schema field (hasattr on the pydantic
object, restricted to configuration fields). -/
def isCondarcFieldName (name : String) : Bool :=
  (condarcFields.find? (fun fld => fld.name = name)).isSome

/-- Whether a value is a Python str. -/
def isStrB : PyValue → Bool
  | PyValue.str _ => true
  | _ => false

/-- Shape of a validated channels entry: a string, or a string-keyed dict
of string-keyed dicts of strings. -/
def isChannelElem : PyValue → Bool
  | PyValue.str _ => true
  | PyValue.dict m =>
    m.all (fun kv =>
      match kv.2 with
      | PyValue.dict inner => inner.all (fun kv2 => isStrB kv2.2)
      | _ => false)
  | _ => false

/-- Well-typedness of one value against a declared field type: exactly
the shapes that coerceField can produce. -/
def typeOK : FieldType → PyValue → Bool
  | FieldType.tBool, PyValue.bool _ => true
  | FieldType.tBoolOpt, PyValue.none => true
  | FieldType.tBoolOpt, PyValue.bool _ => true
  | FieldType.tInt, PyValue.int _ => true
  | FieldType.tIntOrBool, PyValue.int _ => true
  | FieldType.tFloat, PyValue.float _ => true
  | FieldType.tStr, PyValue.str _ => true
  | FieldType.tStrOpt, PyValue.none => true
  | FieldType.tStrOpt, PyValue.str _ => true
  | FieldType.tEnum permitted, PyValue.str s => s ∈ permitted
  | FieldType.tTupleStr, PyValue.tuple xs => xs.all isStrB
  | FieldType.tChannels, PyValue.tuple xs => xs.all isChannelElem
  | FieldType.tDictStr, PyValue.dict m => m.all (fun kv => isStrB kv.2)
  | FieldType.tDictTupleStr, PyValue.dict m =>
    m.all (fun kv =>
      match kv.2 with
      | PyValue.tuple xs => xs.all isStrB
      | _ => false)
  | FieldType.tDictAny, PyValue.dict _ => true
  | _, _ => false

/-- Well-typedness of a whole typed fragment: every schema field holds a
value of its declared type.  Every successfully validated raw mapping
produces a well-typed fragment. -/
def wfConfig (c : Config) : Bool :=
  condarcFields.all (fun fld => typeOK fld.ftype (c fld.name))

/-- CONFIG_ERROR_PREFIX of errors.py. -/
def configErrorHeader : String := "Unable to parse configuration file"

/-- CONDARC_PARSE_ERROR_SUGGESTION of errors.py. -/
def condarcParseErrorSuggestion : String :=
  "Please refer to our documentation to read more about configuration variables" ++
  " and the values the can have:\n" ++
  "https://docs.conda.io/projects/conda/en/latest/configuration.html"

/-- The lines contributed by one entry of a ValidationError in
format_validation_error (errors.py): location, message and, when both an
offending value and a permitted set are present (and truthy), the
provided value. -/
def formatOneError (err : FieldError) : String :=
  let loc := joinSep "," err.loc
  let base := "\n  " ++ loc ++ ": \n" ++ "    " ++ err.msg ++ "\n"
  match err.given, err.permitted with
  | Option.some g, Option.some p =>
    if g ≠ "" ∧ p ≠ [] then
      base ++ "  provided_value: " ++ squote ++ g ++ squote ++ "\n"
    else base
  | _, _ => base

/-- format_validation_error (errors.py): the path of the failing file followed
by every collected field error. -/
def formatValidationError (errs : List FieldError) (path : String) :
    String :=
  configErrorHeader ++ ": " ++ path ++ "\n" ++
    (errs.map formatOneError).foldl (fun acc s => acc ++ s) ""

/-- format_all_validation_errors (errors.py): the per-file error strings
joined by blank lines, followed by the static suggestion. -/
def formatAllValidationErrors (validationErrors : List String) : String :=
  joinSep "\n\n" validationErrors ++ "\n\n" ++ condarcParseErrorSuggestion

/-- The merged value of one schema field in merge_condarc (condarc.py):
the dispatch is on the runtime type of the value of obj_two.  Tuples
are concatenated (obj_two first) and passed through dict.fromkeys,
whose TypeError on an unhashable (mapping-shaped) element is the
Option.none outcome; dicts start from the entries of obj_two and are
updated with those of obj_one (so the value from obj_one wins a shared
key); any other value of obj_two wins unless it is None.  For validated
fragments both sides hold the same shape, so the fallback arms of
pyElems / the dict match are never exercised. -/
def mergeFieldValue (objOne objTwo : Config) (fld : SchemaField) :
    Option PyValue :=
  match objTwo fld.name with
  | PyValue.tuple xs =>
    (pyFromKeys (xs ++ pyElems (objOne fld.name))).map PyValue.tuple
  | PyValue.dict m =>
    Option.some (PyValue.dict
      (pyDictUpdate m
        (match objOne fld.name with
         | PyValue.dict m2 => m2
         | _ => [])))
  | v => Option.some (if v = PyValue.none then objOne fld.name else v)

/-- The keyword mapping merge_condarc builds (merged_values): one entry
per schema field, in obj_two.dict() order, i.e. declaration order; the
loop aborts with the TypeError (Option.none) at the first field whose
tuple concatenation holds an unhashable element. -/
def mergeValues (objOne objTwo : Config) :
    Option (List (String × PyValue)) :=
  condarcFields.mapM (fun fld =>
    (mergeFieldValue objOne objTwo fld).map (fun v => (fld.name, v)))

/-- How one merge_condarc call fails: the TypeError raised by
dict.fromkeys on an unhashable tuple element, or the pydantic
ValidationError from re-validating the merged values. -/
inductive MergeFailure where
  | typeError
  | validationError (errs : List FieldError)
  deriving DecidableEq

/-- merge_condarc (condarc.py): builds the per-field merged values and
re-validates them through CondarcConfig(**merged_values); the TypeError
from the tuple arm propagates out of the call. -/
def mergeCondarc (objOne objTwo : Config) :
    Except MergeFailure Config :=
  match mergeValues objOne objTwo with
  | Option.none => Except.error MergeFailure.typeError
  | Option.some mv =>
    match validateConfig mv with
    | Except.ok c => Except.ok c
    | Except.error errs => Except.error (MergeFailure.validationError errs)

/-- The merged value of one field when its merge succeeds (names the
successful outcome of mergeFieldValue in the theorems below). -/
def mergeFieldValueD (objOne objTwo : Config) (fld : SchemaField) :
    PyValue :=
  (mergeFieldValue objOne objTwo fld).getD PyValue.none

/-- Whether every tuple-valued field of a typed fragment holds only
hashable elements; within the schema, only channels can violate this,
through its mapping-shaped entries. -/
def hashableTuples (c : Config) : Bool :=
  condarcFields.all (fun fld => tupleElemsHashable (c fld.name))

/-- The raw content of one parsed configuration file: either a mapping,
or a bare string (the marker get_condarc_obj uses for a file that did not
parse to a mapping). -/
inductive RawConfig where
  | strVal (s : String)
  | mapVal (m : List (String × PyValue))
  deriving DecidableEq

/-- The failure modes of get_condarc_obj: the aggregated
CondaConfigError; the TypeError functools.reduce raises on an empty
sequence; the TypeError escaping merge_condarc when dict.fromkeys meets
an unhashable tuple element; an uncaught pydantic error escaping
merge_condarc inside the reduction. -/
inductive CondaError where
  | condaConfigError (msg : String)
  | reduceEmptyError
  | mergeTypeError
  | mergeValidationError (errs : List FieldError)
  deriving DecidableEq

/-- One iteration of the loop in get_condarc_obj: a bare string appends a
parse-failure line; a mapping is alias-remapped and validated, appending
either the typed fragment or a formatted validation error. -/
def condarcStep (acc : List Config × List String)
    (entry : String × RawConfig) : List Config × List String :=
  match entry.2 with
  | RawConfig.strVal _ =>
    (acc.1, acc.2 ++ [configErrorHeader ++ ": " ++ entry.1])
  | RawConfig.mapVal m =>
    match validateConfig (remapAliases m) with
    | Except.ok c => (acc.1 ++ [c], acc.2)
    | Except.error errs => (acc.1, acc.2 ++ [formatValidationError errs entry.1])

/-- The loop of get_condarc_obj over all (path, parsed data) pairs. -/
def processConfigData (configData : List (String × RawConfig)) :
    List Config × List String :=
  configData.foldl condarcStep ([], [])

/-- The typed fragments collected by get_condarc_obj, in file order. -/
def collectConfigs (configData : List (String × RawConfig)) : List Config :=
  (processConfigData configData).1

/-- The per-file error strings collected by get_condarc_obj, in file
order. -/
def collectErrors (configData : List (String × RawConfig)) : List String :=
  (processConfigData configData).2

/-- functools.reduce(merge_condarc, configs): left fold of the binary
merge, propagating an uncaught merge failure. -/
def reduceMerge (acc : Config) : List Config → Except MergeFailure Config
  | [] => Except.ok acc
  | c :: cs =>
    match mergeCondarc acc c with
    | Except.ok m => reduceMerge m cs
    | Except.error e => Except.error e

/-- get_condarc_obj (condarc.py): processes every file, raises one
aggregated CondaConfigError if any error was collected, and otherwise
reduces the typed fragments with merge_condarc. -/
def getCondarcObj (configData : List (String × RawConfig)) :
    Except CondaError Config :=
  if collectErrors configData ≠ [] then
    Except.error (CondaError.condaConfigError
      (formatAllValidationErrors (collectErrors configData)))
  else
    match collectConfigs configData with
    | [] => Except.error CondaError.reduceEmptyError
    | c :: cs =>
      match reduceMerge c cs with
      | Except.ok m => Except.ok m
      | Except.error MergeFailure.typeError =>
        Except.error CondaError.mergeTypeError
      | Except.error (MergeFailure.validationError e) =>
        Except.error (CondaError.mergeValidationError e)

/-- The merged value get_condarc_obj assigns to a given field name, when
it succeeds. -/
def condarcValueAt (r : Except CondaError Config) (name : String) :
    Option PyValue :=
  match r with
  | Except.ok c => Option.some (c name)
  | Except.error _ => Option.none

/-- The message of the aggregated CondaConfigError, when one is raised. -/
def condarcErrorMsg (r : Except CondaError Config) : Option String :=
  match r with
  | Except.error (CondaError.condaConfigError m) => Option.some m
  | _ => Option.none

/-- The value a single merge_condarc call assigns to a given field, when
it succeeds. -/
def mergeValueAt (objOne objTwo : Config) (name : String) :
    Option PyValue :=
  match mergeCondarc objOne objTwo with
  | Except.ok c => Option.some (c name)
  | Except.error _ => Option.none

/-- LOCAL_CHANNEL_NAME (constants.py). -/
def localChannelName : String := "local"

/-- DEFAULTS_CHANNEL_NAME (constants.py). -/
def defaultsChannelName : String := "defaults"

/-- The outcome of the I/O performed by read_yaml_file (sources.py):
opening can fail with OSError, parsing can fail with YAMLError, or the
parse produces some document (a mapping, or e.g. a bare string). -/
inductive YamlReadOutcome where
  | osError
  | yamlError
  | parsed (v : RawConfig)
  deriving DecidableEq

/-- read_yaml_file (sources.py): any open or parse error is logged and
the initial empty dict is returned; otherwise the parsed document is
returned as-is. -/
def readYamlFile : YamlReadOutcome → RawConfig
  | YamlReadOutcome.osError => RawConfig.mapVal []
  | YamlReadOutcome.yamlError => RawConfig.mapVal []
  | YamlReadOutcome.parsed v => v

/-- FileConfigSource (sources.py): the raw (path, parsed data) pairs and
the merged CondarcConfig produced by _merge. -/
structure FileConfigSource where
  configFiles : List String
  rawData : List (String × RawConfig)
  parsedData : Config

/-- FileConfigSource construction: parse every file, then _merge — an
empty file list yields the all-defaults CondarcConfig(), otherwise
get_condarc_obj runs on the raw data (and its failure propagates out of
the constructor). -/
def FileConfigSource.make (fileParserFn : String → RawConfig)
    (configFiles : List String) : Except CondaError FileConfigSource :=
  let rawData := configFiles.map (fun p => (p, fileParserFn p))
  let parsed :=
    if configFiles.length = 0 then Except.ok (configFromRaw [])
    else getCondarcObj rawData
  parsed.map (fun c => ⟨configFiles, rawData, c⟩)

/-- CLIConfigSource (sources.py): wraps the argparse Namespace, modelled
as the mapping of attributes actually set on it. -/
structure CLIConfigSource where
  argsObj : List (String × PyValue)

/-- CLIConfigSource.get_parameter: getattr(args_obj, name, None). -/
def CLIConfigSource.getParameter (src : CLIConfigSource) (name : String) :
    PyValue :=
  (pyLookup src.argsObj name).getD PyValue.none

/-- CLIConfigSource.has_parameter: hasattr(args_obj, name). -/
def CLIConfigSource.hasParameter (src : CLIConfigSource) (name : String) :
    Bool :=
  (pyLookup src.argsObj name).isSome

/-- EnvConfigSource (sources.py): backed by the process environment. -/
structure EnvConfigSource where
  environ : List (String × String)

/-- COMMA_SEPARATED_PARAMS of EnvConfigSource. -/
def commaSeparatedParams : List String :=
  ["channels", "default_channels", "whitelist_channels",
   "migrated_channel_aliases", "repodata_fns", "pkgs_dirs",
   "aggressive_update_packages", "create_default_packages",
   "track_features"]

/-- COLON_SEPARATED_PARAMS of EnvConfigSource (the empty string is in the
set literal in the source). -/
def colonSeparatedParams : List String := ["envs_dirs", "envs_path", ""]

/-- AMP_SEPARATED_PARAMS of EnvConfigSource. -/
def ampSeparatedParams : List String :=
  ["disallowed_packages", "pinned_packages"]

/-- EnvConfigSource.get_parameter: reads CONDA_<NAME> and splits
sequence-typed parameters on their declared delimiter. -/
def EnvConfigSource.getParameter (src : EnvConfigSource) (name : String) :
    PyValue :=
  match pyLookup src.environ ("CONDA_" ++ name.toUpper) with
  | Option.some value =>
    if name ∈ commaSeparatedParams then
      PyValue.list ((value.splitOn ",").map PyValue.str)
    else if name ∈ colonSeparatedParams then
      PyValue.list ((value.splitOn ":").map PyValue.str)
    else if name ∈ ampSeparatedParams then
      PyValue.list ((value.splitOn "&").map PyValue.str)
    else PyValue.str value
  | Option.none => PyValue.none

/-- EnvConfigSource.has_parameter: CONDA_<NAME> in os.environ. -/
def EnvConfigSource.hasParameter (src : EnvConfigSource) (name : String) :
    Bool :=
  (pyLookup src.environ ("CONDA_" ++ name.toUpper)).isSome

/-- The has_parameter / get_parameter interface of one ConfigSource, as
consumed by Context.__getattr__. -/
structure SourceView where
  hasp : String → Bool
  getp : String → PyValue

/-- FileConfigSource as a SourceView: attribute lookup on the merged
pydantic object, guarded by its schema fields. -/
def fileView (fs : FileConfigSource) : SourceView :=
  ⟨fun name => isCondarcFieldName name, fun name => fs.parsedData name⟩

/-- CLIConfigSource as a SourceView. -/
def cliView (cli : CLIConfigSource) : SourceView :=
  ⟨cli.hasParameter, cli.getParameter⟩

/-- EnvConfigSource as a SourceView. -/
def envView (env : EnvConfigSource) : SourceView :=
  ⟨env.hasParameter, env.getParameter⟩

/-- The Context object (context.py): the three optional configuration
sources plus the SystemConfiguration object, modelled as the mapping of
attributes defined on it. -/
structure Context where
  fileSource : Option FileConfigSource
  envSource : Option EnvConfigSource
  cliSource : Option CLIConfigSource
  systemConfig : List (String × PyValue)

/-- The per-source views in CONFIG_PARSE_ORDER ("cli", "env", "file"). -/
def Context.sourceViews (ctx : Context) : List (Option SourceView) :=
  [ctx.cliSource.map cliView, ctx.envSource.map envView,
   ctx.fileSource.map fileView]

/-- The result of Context.__getattr__: a value, or an AttributeError. -/
inductive AttrResult where
  | value (v : PyValue)
  | attributeError
  deriving DecidableEq

/-- The source loop of Context.__getattr__: sequence and mapping values
are accumulated across sources, any other value returns immediately. -/
def getattrLoop (item : String) :
    List (Option SourceView) → List PyValue →
    List (String × PyValue) → Sum (List PyValue × List (String × PyValue)) PyValue
  | [], seq, map => Sum.inl (seq, map)
  | Option.none :: rest, seq, map => getattrLoop item rest seq map
  | Option.some sv :: rest, seq, map =>
    if sv.hasp item then
      match sv.getp item with
      | PyValue.tuple xs => getattrLoop item rest (seq ++ xs) map
      | PyValue.list xs => getattrLoop item rest (seq ++ xs) map
      | PyValue.dict m => getattrLoop item rest seq (pyDictUpdate map m)
      | v => Sum.inr v
    else getattrLoop item rest seq map

/-- Context.__getattr__ (context.py): consult the sources in parse order,
then return the accumulated sequence (as a tuple) or mapping if
non-empty, then fall back to the SystemConfiguration attribute, and
otherwise raise AttributeError. -/
def Context.getattr (ctx : Context) (item : String) : AttrResult :=
  match getattrLoop item ctx.sourceViews [] [] with
  | Sum.inr v => AttrResult.value v
  | Sum.inl (seq, map) =>
    if ¬ seq.isEmpty then AttrResult.value (PyValue.tuple seq)
    else if ¬ map.isEmpty then AttrResult.value (PyValue.dict map)
    else
      match pyLookup ctx.systemConfig item with
      | Option.some v => AttrResult.value v
      | Option.none => AttrResult.attributeError

/-- The loop body of Context._get_channel_names: a mapping entry
contributes its first key (when it has one), any other entry is kept
as-is. -/
def channelNamesOf (xs : List PyValue) : List PyValue :=
  xs.foldl
    (fun acc c =>
      match c with
      | PyValue.dict [] => acc
      | PyValue.dict ((k, _) :: _) => acc ++ [PyValue.str k]
      | c2 => acc ++ [c2])
    []

/-- Context._get_channel_names (context.py): iterates
self.__getattr__("channels").  A tuple or list is iterated elementwise, a
dict is iterated over its keys; the remaining cases (scalar values do not
support iteration) do not occur for this attribute. -/
def Context.getChannelNames (ctx : Context) : List PyValue :=
  match ctx.getattr "channels" with
  | AttrResult.value (PyValue.tuple xs) => channelNamesOf xs
  | AttrResult.value (PyValue.list xs) => channelNamesOf xs
  | AttrResult.value (PyValue.dict m) =>
    channelNamesOf (m.map (fun kv => PyValue.str kv.1))
  | _ => []

/-- Python `"channels" in data` where data is a parsed file: key lookup
on a mapping, substring containment on a bare string. -/
def rawHasChannels : RawConfig → Bool
  | RawConfig.mapVal m => (pyLookup m "channels").isSome
  | RawConfig.strVal s => strContainsB s "channels"

/-- The outcome of reading the Context.channels property: a channel
tuple, one of the two guard errors, or an AttributeError escaping the
property body. -/
inductive ChannelsOutcome where
  | ok (channels : List PyValue)
  | operationNotAllowed
  | argumentError
  | attributeError
  deriving DecidableEq

/-- The Context.channels property (context.py).  AttributeError can
escape from self.use_local, from a missing CLI source (None has no
get_parameter), from self.override_channels_enabled, and from a missing
file source. -/
def Context.channelsProperty (ctx : Context) : ChannelsOutcome :=
  match ctx.getattr "use_local" with
  | AttrResult.attributeError => ChannelsOutcome.attributeError
  | AttrResult.value useLocalVal =>
    match ctx.cliSource with
    | Option.none => ChannelsOutcome.attributeError
    | Option.some cli =>
      let localAdd : List PyValue :=
        if truthy useLocalVal then [PyValue.str localChannelName] else []
      let overrideChannels := cli.getParameter "override_channels"
      let channel := cli.getParameter "channel"
      if truthy overrideChannels then
        match ctx.getattr "override_channels_enabled" with
        | AttrResult.attributeError => ChannelsOutcome.attributeError
        | AttrResult.value oce =>
          if ¬ truthy oce then ChannelsOutcome.operationNotAllowed
          else if ¬ truthy channel then ChannelsOutcome.argumentError
          else ChannelsOutcome.ok (pyDedup (localAdd ++ pyElems channel))
      else if truthy channel then
        match ctx.fileSource with
        | Option.none => ChannelsOutcome.attributeError
        | Option.some fs =>
          let channelInConfigFiles :=
            fs.rawData.any (fun pd => rawHasChannels pd.2)
          if ¬ channelInConfigFiles then
            ChannelsOutcome.ok
              (pyDedup (localAdd ++ pyElems channel ++
                [PyValue.str defaultsChannelName]))
          else
            ChannelsOutcome.ok
              (pyDedup (pyElems channel ++ ctx.getChannelNames ++ localAdd))
      else ChannelsOutcome.ok (pyDedup (ctx.getChannelNames ++ localAdd))

/-- Substring containment as a proposition (the Python substring relation
on the strings our theorems talk about). -/
def strContains (haystack needle : String) : Prop :=
  needle.toList <:+: haystack.toList

instance (haystack needle : String) :
    Decidable (strContains haystack needle) :=
  inferInstanceAs (Decidable (List.IsInfix _ _))

/-- The field types whose values take the scalar (override) arm of
merge_condarc: everything that is not tuple- or dict-shaped. -/
def scalarFieldType : FieldType → Bool
  | FieldType.tTupleStr => false
  | FieldType.tChannels => false
  | FieldType.tDictStr => false
  | FieldType.tDictTupleStr => false
  | FieldType.tDictAny => false
  | _ => true

/-- The channels schema field (first entry of condarcFields). -/
def channelsField : SchemaField :=
  ⟨"channels", FieldType.tChannels, PyValue.tuple [PyValue.str "defaults"]⟩

/-- The always_yes schema field. -/
def alwaysYesField : SchemaField :=
  ⟨"always_yes", FieldType.tBool, PyValue.bool false⟩

/-- Typed fragment whose raw source set custom_channels to {"a": "1"}. -/
def lowCustom : Config :=
  configFromRaw [("custom_channels", PyValue.dict [("a", PyValue.str "1")])]

/-- Typed fragment whose raw source set custom_channels to
{"a": "2", "b": "3"}. -/
def highCustom : Config :=
  configFromRaw
    [("custom_channels",
      PyValue.dict [("a", PyValue.str "2"), ("b", PyValue.str "3")])]

/-- Typed fragment whose raw source set always_yes to True. -/
def lowAlwaysYes : Config :=
  configFromRaw [("always_yes", PyValue.bool true)]

/-- Typed fragment made from an empty raw mapping (every field at its
schema default). -/
def emptyRawConfig : Config := configFromRaw []

/-- Typed fragment whose raw source set channels to ["a"]. -/
def lowChannelsA : Config :=
  configFromRaw [("channels", PyValue.list [PyValue.str "a"])]

/-- Typed fragment whose raw source set channels to ["b", "a"]. -/
def highChannelsBA : Config :=
  configFromRaw
    [("channels", PyValue.list [PyValue.str "b", PyValue.str "a"])]

/-- Typed fragment whose raw source set channels to the single
mapping-shaped entry {"http://localhost": {"type": "local"}}, the shape
the schema admits and the _get_channel_names docstring shows. -/
def highChannelsMapping : Config :=
  configFromRaw
    [("channels", PyValue.list
      [PyValue.dict [("http://localhost",
        PyValue.dict [("type", PyValue.str "local")])]])]

/-- The two-file input of the two-file merge scenario: file A sets
channels [defaults] and always_yes true, file B (later, higher
precedence) sets channels [conda-forge] and always_yes false. -/
def twoFileData : List (String × RawConfig) :=
  [("a.yaml", RawConfig.mapVal
     [("channels", PyValue.list [PyValue.str "defaults"]),
      ("always_yes", PyValue.bool true)]),
   ("b.yaml", RawConfig.mapVal
     [("channels", PyValue.list [PyValue.str "conda-forge"]),
      ("always_yes", PyValue.bool false)])]

/-- Three-file validation scenario: the first and third files are
invalid (a bad channel_priority and a bad always_yes), the second is
valid. -/
def threeFileData : List (String × RawConfig) :=
  [("/etc/conda/.condarc", RawConfig.mapVal
     [("channel_priority", PyValue.str "bogus")]),
   ("/home/user/.condarc", RawConfig.mapVal
     [("channels", PyValue.list [PyValue.str "conda-forge"]),
      ("always_yes", PyValue.bool true)]),
   ("/tmp/extra.yaml", RawConfig.mapVal
     [("always_yes", PyValue.str "not-a-bool")])]

/-- A FileConfigSource over one file that only disables
override_channels_enabled. -/
def fileSourceOverrideDisabled : FileConfigSource :=
  ⟨["/home/user/.condarc"],
   [("/home/user/.condarc", RawConfig.mapVal
      [("override_channels_enabled", PyValue.bool false)])],
   configFromRaw [("override_channels_enabled", PyValue.bool false)]⟩

/-- A FileConfigSource over one file with an empty mapping. -/
def fileSourceEmpty : FileConfigSource :=
  ⟨["/home/user/.condarc"],
   [("/home/user/.condarc", RawConfig.mapVal [])],
   configFromRaw []⟩

/-- A FileConfigSource over one file that sets channels [defaults]. -/
def fileSourceDefaultsChannel : FileConfigSource :=
  ⟨["/home/user/.condarc"],
   [("/home/user/.condarc", RawConfig.mapVal
      [("channels", PyValue.list [PyValue.str "defaults"])])],
   configFromRaw [("channels", PyValue.list [PyValue.str "defaults"])]⟩

/-- Context: CLI requests override_channels with channels supplied, but
the file configuration disables overriding. -/
def ctxOverrideDisabled : Context :=
  ⟨Option.some fileSourceOverrideDisabled, Option.none,
   Option.some ⟨[("override_channels", PyValue.bool true),
                 ("channel", PyValue.list [PyValue.str "conda-forge"])]⟩,
   []⟩

/-- Context: CLI requests override_channels without any channel flag. -/
def ctxOverrideNoChannel : Context :=
  ⟨Option.some fileSourceEmpty, Option.none,
   Option.some ⟨[("override_channels", PyValue.bool true)]⟩, []⟩

/-- Context: CLI requests override_channels with use_local and a
duplicated channel list. -/
def ctxOverrideWithChannels : Context :=
  ⟨Option.some fileSourceEmpty, Option.none,
   Option.some ⟨[("override_channels", PyValue.bool true),
                 ("channel", PyValue.list
                   [PyValue.str "conda-forge", PyValue.str "conda-forge"]),
                 ("use_local", PyValue.bool true)]⟩,
   []⟩

/-- Context: use_local is set, a CLI channel is given, and a config file
also declares channels, so the channels property takes the branch that
appends local_add after the config-file channel names. -/
def ctxLocalAppended : Context :=
  ⟨Option.some fileSourceDefaultsChannel, Option.none,
   Option.some ⟨[("use_local", PyValue.bool true),
                 ("channel", PyValue.list [PyValue.str "conda-forge"])]⟩,
   []⟩

theorem strToList_append (a b : String) :
    (a ++ b).toList = a.toList ++ b.toList := rfl

theorem mem_pyDedupAux (a : PyValue) :
    ∀ (xs seen : List PyValue),
      a ∈ pyDedupAux seen xs ↔ (a ∈ xs ∧ a ∉ seen)
  | [], seen => by simp [pyDedupAux]
  | x :: xs, seen => by
    rw [pyDedupAux]
    by_cases hx : x ∈ seen
    · rw [if_pos hx, mem_pyDedupAux a xs seen]
      constructor
      · rintro ⟨h1, h2⟩
        exact ⟨List.mem_cons_of_mem x h1, h2⟩
      · rintro ⟨h1, h2⟩
        rcases List.mem_cons.mp h1 with h | h
        · exact absurd hx (h ▸ h2)
        · exact ⟨h, h2⟩
    · rw [if_neg hx]
      rw [List.mem_cons, mem_pyDedupAux a xs (x :: seen)]
      constructor
      · rintro (h | ⟨h1, h2⟩)
        · subst h; exact ⟨List.mem_cons_self a xs, hx⟩
        · exact ⟨List.mem_cons_of_mem x h1,
            fun hs => h2 (List.mem_cons_of_mem x hs)⟩
      · rintro ⟨h1, h2⟩
        by_cases hax : a = x
        · exact Or.inl hax
        · refine Or.inr ⟨?_, fun hs => ?_⟩
          · rcases List.mem_cons.mp h1 with h | h
            · exact absurd h hax
            · exact h
          · rcases List.mem_cons.mp hs with h3 | h3
            · exact hax h3
            · exact h2 h3

theorem mem_pyDedup (a : PyValue) (xs : List PyValue) :
    a ∈ pyDedup xs ↔ a ∈ xs := by
  rw [pyDedup, mem_pyDedupAux]
  simp

theorem strContains_append_left (a b needle : String)
    (h : strContains b needle) : strContains (a ++ b) needle := by
  obtain ⟨s, t, hst⟩ := h
  exact ⟨a.toList ++ s, t, by
    rw [strToList_append, List.append_assoc, List.append_assoc, ← hst,
      List.append_assoc]⟩

theorem strContains_append_right (a b needle : String)
    (h : strContains a needle) : strContains (a ++ b) needle := by
  obtain ⟨s, t, hst⟩ := h
  exact ⟨s, t ++ b.toList, by
    rw [strToList_append, ← hst]
    simp [List.append_assoc]⟩

theorem strContains_affix (a needle b : String) :
    strContains (a ++ needle ++ b) needle :=
  ⟨a.toList, b.toList, by simp [strToList_append]⟩

theorem strContains_refl (s : String) : strContains s s :=
  ⟨[], [], by simp⟩

theorem strContains_joinSep (sep : String) :
    ∀ (l : List String) (e : String), e ∈ l →
      strContains (joinSep sep l) e
  | [], e, h => absurd h (List.not_mem_nil e)
  | [x], e, h => by
    rw [List.mem_singleton] at h
    subst h
    exact strContains_refl e
  | x :: y :: ys, e, h => by
    rcases List.mem_cons.mp h with he | he
    · subst he
      rw [joinSep]
      exact strContains_append_right _ _ _
        (strContains_append_right _ _ _ (strContains_refl e))
    · rw [joinSep]
      exact strContains_append_left _ _ _
        (strContains_joinSep sep (y :: ys) e he)

theorem strContains_formatAll (errs : List String) (e : String)
    (h : e ∈ errs) :
    strContains (formatAllValidationErrors errs) e := by
  rw [formatAllValidationErrors]
  exact strContains_append_right _ _ _
    (strContains_append_right _ _ _ (strContains_joinSep _ _ _ h))

theorem strContains_formatAll_suggestion (errs : List String) :
    strContains (formatAllValidationErrors errs)
      condarcParseErrorSuggestion := by
  rw [formatAllValidationErrors]
  exact strContains_append_left _ _ _ (strContains_refl _)

theorem strContains_formatValidationError_path (errs : List FieldError)
    (path : String) :
    strContains (formatValidationError errs path) path := by
  rw [formatValidationError]
  exact strContains_append_right _ _ _
    (strContains_append_right _ _ _
      (strContains_append_left _ _ _ (strContains_refl _)))

theorem condarcStep_acc (acc : List Config × List String)
    (entry : String × RawConfig) :
    condarcStep acc entry =
      (acc.1 ++ (condarcStep ([], []) entry).1,
       acc.2 ++ (condarcStep ([], []) entry).2) := by
  obtain ⟨p, cfg⟩ := entry
  cases cfg with
  | strVal s => simp [condarcStep]
  | mapVal m =>
    cases h : validateConfig (remapAliases m) with
    | ok c => simp [condarcStep, h]
    | error e => simp [condarcStep, h]

theorem processConfigData_acc :
    ∀ (data : List (String × RawConfig)) (cs : List Config)
      (es : List String),
      data.foldl condarcStep (cs, es) =
        (cs ++ (processConfigData data).1, es ++ (processConfigData data).2)
  | [], cs, es => by simp [processConfigData]
  | d :: data, cs, es => by
    have hstep := condarcStep_acc (cs, es) d
    have hstep0 := condarcStep_acc ([], []) d
    simp only [processConfigData, List.foldl_cons]
    rw [hstep, processConfigData_acc data,
      processConfigData_acc data (condarcStep ([], []) d).1]
    simp [List.append_assoc]

theorem collectErrors_cons (d : String × RawConfig)
    (data : List (String × RawConfig)) :
    collectErrors (d :: data) =
      (condarcStep ([], []) d).2 ++ collectErrors data := by
  show (processConfigData (d :: data)).2 = _
  simp only [processConfigData, List.foldl_cons]
  rw [show List.foldl condarcStep (condarcStep ([], []) d) data =
      List.foldl condarcStep ((condarcStep ([], []) d).1,
        (condarcStep ([], []) d).2) data from rfl,
    processConfigData_acc data]
  rfl

theorem mem_collectErrors_of_strVal :
    ∀ (data : List (String × RawConfig)) (p s : String),
      (p, RawConfig.strVal s) ∈ data →
      (configErrorHeader ++ ": " ++ p) ∈ collectErrors data
  | [], p, s, h => absurd h (List.not_mem_nil _)
  | d :: data, p, s, h => by
    rw [collectErrors_cons]
    rcases List.mem_cons.mp h with he | he
    · subst he
      simp [condarcStep]
    · exact List.mem_append_right _
        (mem_collectErrors_of_strVal data p s he)

theorem mem_collectErrors_of_invalid :
    ∀ (data : List (String × RawConfig)) (p : String)
      (m : List (String × PyValue)) (errs : List FieldError),
      (p, RawConfig.mapVal m) ∈ data →
      validateConfig (remapAliases m) = Except.error errs →
      formatValidationError errs p ∈ collectErrors data
  | [], p, m, errs, h, _ => absurd h (List.not_mem_nil _)
  | d :: data, p, m, errs, h, hv => by
    rw [collectErrors_cons]
    rcases List.mem_cons.mp h with he | he
    · subst he
      simp [condarcStep, hv]
    · exact List.mem_append_right _
        (mem_collectErrors_of_invalid data p m errs he hv)

theorem getCondarcObj_of_errors (data : List (String × RawConfig))
    (h : collectErrors data ≠ []) :
    getCondarcObj data =
      Except.error (CondaError.condaConfigError
        (formatAllValidationErrors (collectErrors data))) := by
  rw [getCondarcObj, if_pos h]

theorem condarcNames_nodup :
    (condarcFields.map SchemaField.name).Nodup := by decide

theorem find?_field_eq :
    ∀ (l : List SchemaField), (l.map SchemaField.name).Nodup →
      ∀ fld ∈ l, l.find? (fun f => f.name = fld.name) = Option.some fld
  | [], _, fld, hm => absurd hm (List.not_mem_nil _)
  | f :: rest, hnd, fld, hm => by
    rw [List.map_cons, List.nodup_cons] at hnd
    rw [List.find?_cons]
    by_cases hf : f.name = fld.name
    · rcases List.mem_cons.mp hm with he | he
      · subst he
        simp
      · exact absurd (hf ▸ List.mem_map_of_mem SchemaField.name he) hnd.1
    · rcases List.mem_cons.mp hm with he | he
      · exact absurd (he ▸ rfl) hf
      · rw [show (decide (f.name = fld.name)) = false by simp [hf]]
        exact find?_field_eq rest hnd.2 fld he

theorem pyLookup_map_field (g : SchemaField → PyValue) :
    ∀ (l : List SchemaField), (l.map SchemaField.name).Nodup →
      ∀ fld ∈ l,
        pyLookup (l.map (fun f => (f.name, g f))) fld.name =
          Option.some (g fld)
  | [], _, fld, hm => absurd hm (List.not_mem_nil _)
  | f :: rest, hnd, fld, hm => by
    rw [List.map_cons, List.nodup_cons] at hnd
    rw [List.map_cons, pyLookup]
    by_cases hf : f.name = fld.name
    · rcases List.mem_cons.mp hm with he | he
      · subst he
        simp
      · exact absurd (hf ▸ List.mem_map_of_mem SchemaField.name he) hnd.1
    · rw [if_neg hf]
      rcases List.mem_cons.mp hm with he | he
      · exact absurd (he ▸ rfl) hf
      · exact pyLookup_map_field g rest hnd.2 fld he

theorem configFromRaw_at (raw : List (String × PyValue))
    (fld : SchemaField) (hm : fld ∈ condarcFields) :
    configFromRaw raw fld.name =
      (match validateField raw fld with
       | Except.ok v => v
       | Except.error _ => fld.default) := by
  rw [configFromRaw, find?_field_eq condarcFields condarcNames_nodup fld hm]

theorem validateConfig_ok (raw : List (String × PyValue)) (c : Config)
    (h : validateConfig raw = Except.ok c) :
    c = configFromRaw raw ∧ validateErrors raw = [] := by
  rw [validateConfig] at h
  by_cases he : validateErrors raw = []
  · rw [if_pos he] at h
    exact ⟨(Except.ok.injEq _ _ |>.mp h).symm, he⟩
  · rw [if_neg he] at h
    exact absurd h (by simp)

theorem validateErrors_nil_of_fields (raw : List (String × PyValue))
    (h : ∀ fld ∈ condarcFields,
      exceptErr (validateField raw fld) = Option.none) :
    validateErrors raw = [] := by
  rw [validateErrors]
  exact List.filterMap_eq_nil_iff.mpr h

theorem validateField_default (raw : List (String × PyValue))
    (fld : SchemaField) (h : pyLookup raw fld.name = Option.none) :
    validateField raw fld = Except.ok fld.default := by
  rw [validateField, h]

theorem mapM_some_id {α : Type} (f : α → Option α) :
    ∀ (xs : List α), (∀ x ∈ xs, f x = Option.some x) →
      xs.mapM f = Option.some xs
  | [], _ => rfl
  | x :: xs, h => by
    rw [List.mapM_cons, h x (List.mem_cons_self x xs),
      mapM_some_id f xs (fun y hy => h y (List.mem_cons_of_mem x hy))]
    rfl


theorem coerceStrV_id (v : PyValue) (h : isStrB v = true) :
    coerceStrV v = Option.some v := by
  cases v with
  | str s => rfl
  | none => exact Bool.noConfusion h
  | bool b => exact Bool.noConfusion h
  | int n => exact Bool.noConfusion h
  | float q => exact Bool.noConfusion h
  | tuple xs => exact Bool.noConfusion h
  | list xs => exact Bool.noConfusion h
  | dict m => exact Bool.noConfusion h

theorem coerceChannelElem_id (v : PyValue)
    (h : isChannelElem v = true) : coerceChannelElem v = Option.some v := by
  cases v with
  | str s => rfl
  | dict m =>
    have h2 : m.all (fun kv =>
        match kv.2 with
        | PyValue.dict inner => inner.all (fun kv2 => isStrB kv2.2)
        | _ => false) = true := h
    have hm : m.mapM (fun (kv : String × PyValue) =>
        match kv.2 with
        | PyValue.dict inner =>
          (inner.mapM (fun (kv2 : String × PyValue) =>
            (coerceStrV kv2.2).map (fun w => (kv2.1, w)))).map
            (fun innerOk => (kv.1, PyValue.dict innerOk))
        | _ => Option.none) = Option.some m := by
      apply mapM_some_id
      intro kv hkv
      have hh := List.all_eq_true.mp h2 kv hkv
      obtain ⟨k, v2⟩ := kv
      cases v2 with
      | dict inner =>
        have hinner : inner.mapM (fun (kv2 : String × PyValue) =>
            (coerceStrV kv2.2).map (fun w => (kv2.1, w))) =
            Option.some inner := by
          apply mapM_some_id
          intro kv2 hkv2
          rw [coerceStrV_id kv2.2 (List.all_eq_true.mp hh kv2 hkv2)]
          rfl
        show (inner.mapM (fun (kv2 : String × PyValue) =>
            (coerceStrV kv2.2).map (fun w => (kv2.1, w)))).map
            (fun innerOk => (k, PyValue.dict innerOk)) =
            Option.some (k, PyValue.dict inner)
        rw [hinner]
        rfl
      | none => exact Bool.noConfusion hh
      | bool b => exact Bool.noConfusion hh
      | int n => exact Bool.noConfusion hh
      | float q => exact Bool.noConfusion hh
      | str s => exact Bool.noConfusion hh
      | tuple xs => exact Bool.noConfusion hh
      | list xs => exact Bool.noConfusion hh
    show (m.mapM (fun (kv : String × PyValue) =>
        match kv.2 with
        | PyValue.dict inner =>
          (inner.mapM (fun (kv2 : String × PyValue) =>
            (coerceStrV kv2.2).map (fun w => (kv2.1, w)))).map
            (fun innerOk => (kv.1, PyValue.dict innerOk))
        | _ => Option.none)).map PyValue.dict = Option.some (PyValue.dict m)
    rw [hm]
    rfl
  | none => exact Bool.noConfusion h
  | bool b => exact Bool.noConfusion h
  | int n => exact Bool.noConfusion h
  | float q => exact Bool.noConfusion h
  | tuple xs => exact Bool.noConfusion h
  | list xs => exact Bool.noConfusion h

theorem coerceField_id (fld : SchemaField) (v : PyValue)
    (h : typeOK fld.ftype v = true) : coerceField fld v = Except.ok v := by
  rcases fld with ⟨name, ftype, deflt⟩
  cases ftype with
  | tBool => cases v <;> first | rfl | exact Bool.noConfusion h
  | tBoolOpt => cases v <;> first | rfl | exact Bool.noConfusion h
  | tInt => cases v <;> first | rfl | exact Bool.noConfusion h
  | tIntOrBool => cases v <;> first | rfl | exact Bool.noConfusion h
  | tFloat => cases v <;> first | rfl | exact Bool.noConfusion h
  | tStr => cases v <;> first | rfl | exact Bool.noConfusion h
  | tStrOpt => cases v <;> first | rfl | exact Bool.noConfusion h
  | tDictAny => cases v <;> first | rfl | exact Bool.noConfusion h
  | tEnum permitted =>
    cases v with
    | str s =>
      have hs : s ∈ permitted := of_decide_eq_true h
      show (if s ∈ permitted then Except.ok (PyValue.str s)
            else Except.error (⟨[name], enumErrorMsg permitted,
              Option.some s, Option.some permitted⟩ : FieldError)) =
          Except.ok (PyValue.str s)
      rw [if_pos hs]
    | none => exact Bool.noConfusion h
    | bool b => exact Bool.noConfusion h
    | int n => exact Bool.noConfusion h
    | float q => exact Bool.noConfusion h
    | tuple xs => exact Bool.noConfusion h
    | list xs => exact Bool.noConfusion h
    | dict m => exact Bool.noConfusion h
  | tTupleStr =>
    cases v with
    | tuple xs =>
      have h2 : xs.all isStrB = true := h
      have hm : xs.mapM coerceStrV = Option.some xs :=
        mapM_some_id _ xs
          (fun x hx => coerceStrV_id x (List.all_eq_true.mp h2 x hx))
      show (match xs.mapM coerceStrV with
            | Option.some ys => Except.ok (PyValue.tuple ys)
            | Option.none =>
              Except.error (plainError name "str type expected")) =
          Except.ok (PyValue.tuple xs)
      rw [hm]
    | none => exact Bool.noConfusion h
    | bool b => exact Bool.noConfusion h
    | int n => exact Bool.noConfusion h
    | float q => exact Bool.noConfusion h
    | str s => exact Bool.noConfusion h
    | list xs => exact Bool.noConfusion h
    | dict m => exact Bool.noConfusion h
  | tChannels =>
    cases v with
    | tuple xs =>
      have h2 : xs.all isChannelElem = true := h
      have hm : xs.mapM coerceChannelElem = Option.some xs :=
        mapM_some_id _ xs
          (fun x hx => coerceChannelElem_id x (List.all_eq_true.mp h2 x hx))
      show (match xs.mapM coerceChannelElem with
            | Option.some ys => Except.ok (PyValue.tuple ys)
            | Option.none =>
              Except.error (plainError name "str type expected")) =
          Except.ok (PyValue.tuple xs)
      rw [hm]
    | none => exact Bool.noConfusion h
    | bool b => exact Bool.noConfusion h
    | int n => exact Bool.noConfusion h
    | float q => exact Bool.noConfusion h
    | str s => exact Bool.noConfusion h
    | list xs => exact Bool.noConfusion h
    | dict m => exact Bool.noConfusion h
  | tDictStr =>
    cases v with
    | dict m =>
      have h2 : m.all (fun kv => isStrB kv.2) = true := h
      have hm : m.mapM (fun (kv : String × PyValue) =>
          (coerceStrV kv.2).map (fun w => (kv.1, w))) = Option.some m := by
        apply mapM_some_id
        intro kv hkv
        rw [coerceStrV_id kv.2 (List.all_eq_true.mp h2 kv hkv)]
        rfl
      show (match m.mapM (fun (kv : String × PyValue) =>
              (coerceStrV kv.2).map (fun w => (kv.1, w))) with
            | Option.some m2 => Except.ok (PyValue.dict m2)
            | Option.none =>
              Except.error (plainError name "str type expected")) =
          Except.ok (PyValue.dict m)
      rw [hm]
    | none => exact Bool.noConfusion h
    | bool b => exact Bool.noConfusion h
    | int n => exact Bool.noConfusion h
    | float q => exact Bool.noConfusion h
    | str s => exact Bool.noConfusion h
    | tuple xs => exact Bool.noConfusion h
    | list xs => exact Bool.noConfusion h
  | tDictTupleStr =>
    cases v with
    | dict m =>
      have h2 : m.all (fun kv =>
          match kv.2 with
          | PyValue.tuple xs => xs.all isStrB
          | _ => false) = true := h
      have hm : m.mapM (fun (kv : String × PyValue) =>
          match seqElems kv.2 with
          | Option.some xs =>
            (xs.mapM coerceStrV).map (fun ys => (kv.1, PyValue.tuple ys))
          | Option.none => Option.none) = Option.some m := by
        apply mapM_some_id
        intro kv hkv
        have hh := List.all_eq_true.mp h2 kv hkv
        obtain ⟨k, v2⟩ := kv
        cases v2 with
        | tuple xs =>
          have hxs : xs.mapM coerceStrV = Option.some xs :=
            mapM_some_id _ xs
              (fun x hx => coerceStrV_id x (List.all_eq_true.mp hh x hx))
          show (xs.mapM coerceStrV).map
              (fun ys => (k, PyValue.tuple ys)) =
              Option.some (k, PyValue.tuple xs)
          rw [hxs]
          rfl
        | none => exact Bool.noConfusion hh
        | bool b => exact Bool.noConfusion hh
        | int n => exact Bool.noConfusion hh
        | float q => exact Bool.noConfusion hh
        | str s => exact Bool.noConfusion hh
        | list xs => exact Bool.noConfusion hh
        | dict m2 => exact Bool.noConfusion hh
      show (match m.mapM (fun (kv : String × PyValue) =>
              match seqElems kv.2 with
              | Option.some xs =>
                (xs.mapM coerceStrV).map
                  (fun ys => (kv.1, PyValue.tuple ys))
              | Option.none => Option.none) with
            | Option.some m2 => Except.ok (PyValue.dict m2)
            | Option.none =>
              Except.error (plainError name "value is not a valid tuple")) =
          Except.ok (PyValue.dict m)
      rw [hm]
    | none => exact Bool.noConfusion h
    | bool b => exact Bool.noConfusion h
    | int n => exact Bool.noConfusion h
    | float q => exact Bool.noConfusion h
    | str s => exact Bool.noConfusion h
    | tuple xs => exact Bool.noConfusion h
    | list xs => exact Bool.noConfusion h

theorem mem_pyDictSet {α : Type} (kv : String × α) (k : String) (v : α) :
    ∀ (d : List (String × α)), kv ∈ pyDictSet d k v →
      kv ∈ d ∨ kv = (k, v)
  | [], h => by
    rw [pyDictSet] at h
    exact Or.inr (List.mem_singleton.mp h)
  | (k2, v2) :: rest, h => by
    rw [pyDictSet] at h
    by_cases hk : k2 = k
    · rw [if_pos hk] at h
      rcases List.mem_cons.mp h with he | he
      · exact Or.inr he
      · exact Or.inl (List.mem_cons_of_mem _ he)
    · rw [if_neg hk] at h
      rcases List.mem_cons.mp h with he | he
      · exact Or.inl (he ▸ List.mem_cons_self _ _)
      · rcases mem_pyDictSet kv k v rest he with h3 | h3
        · exact Or.inl (List.mem_cons_of_mem _ h3)
        · exact Or.inr h3

theorem mem_pyDictUpdate {α : Type} (kv : String × α) :
    ∀ (other d : List (String × α)), kv ∈ pyDictUpdate d other →
      kv ∈ d ∨ kv ∈ other
  | [], d, h => Or.inl h
  | o :: os, d, h => by
    have h2 : kv ∈ pyDictUpdate (pyDictSet d o.1 o.2) os := h
    rcases mem_pyDictUpdate kv os (pyDictSet d o.1 o.2) h2 with h3 | h3
    · rcases mem_pyDictSet kv o.1 o.2 d h3 with h4 | h4
      · exact Or.inl h4
      · rw [h4]
        exact Or.inr (List.mem_cons.mpr (Or.inl rfl))
    · exact Or.inr (List.mem_cons_of_mem o h3)

theorem pyHashableList_append :
    ∀ (xs ys : List PyValue),
      pyHashableList (xs ++ ys) = (pyHashableList xs && pyHashableList ys)
  | [], ys => by simp [pyHashableList]
  | x :: xs, ys => by
    rw [List.cons_append, pyHashableList, pyHashableList,
      pyHashableList_append xs ys, Bool.and_assoc]

theorem mapM_eq_map {α β : Type} (f : α → Option β) (g : α → β) :
    ∀ (xs : List α), (∀ x ∈ xs, f x = Option.some (g x)) →
      xs.mapM f = Option.some (xs.map g)
  | [], _ => rfl
  | x :: xs, h => by
    rw [List.mapM_cons, h x (List.mem_cons_self x xs),
      mapM_eq_map f g xs (fun y hy => h y (List.mem_cons_of_mem x hy))]
    rfl

theorem mergeFieldValue_ok (one two : Config) (fld : SchemaField)
    (h1 : typeOK fld.ftype (one fld.name) = true)
    (h2 : typeOK fld.ftype (two fld.name) = true)
    (hh1 : tupleElemsHashable (one fld.name) = true)
    (hh2 : tupleElemsHashable (two fld.name) = true) :
    mergeFieldValue one two fld =
      Option.some (mergeFieldValueD one two fld) ∧
    typeOK fld.ftype (mergeFieldValueD one two fld) = true := by
  rw [mergeFieldValueD, mergeFieldValue]
  cases hft : fld.ftype with
  | tBool =>
    rw [hft] at h1 h2
    cases htwo : two fld.name <;> rw [htwo] at h2 <;>
      first
        | exact Bool.noConfusion h2
        | exact ⟨rfl, h2⟩
        | exact ⟨rfl, h1⟩
  | tBoolOpt =>
    rw [hft] at h1 h2
    cases htwo : two fld.name <;> rw [htwo] at h2 <;>
      first
        | exact Bool.noConfusion h2
        | exact ⟨rfl, h2⟩
        | exact ⟨rfl, h1⟩
  | tInt =>
    rw [hft] at h1 h2
    cases htwo : two fld.name <;> rw [htwo] at h2 <;>
      first
        | exact Bool.noConfusion h2
        | exact ⟨rfl, h2⟩
        | exact ⟨rfl, h1⟩
  | tIntOrBool =>
    rw [hft] at h1 h2
    cases htwo : two fld.name <;> rw [htwo] at h2 <;>
      first
        | exact Bool.noConfusion h2
        | exact ⟨rfl, h2⟩
        | exact ⟨rfl, h1⟩
  | tFloat =>
    rw [hft] at h1 h2
    cases htwo : two fld.name <;> rw [htwo] at h2 <;>
      first
        | exact Bool.noConfusion h2
        | exact ⟨rfl, h2⟩
        | exact ⟨rfl, h1⟩
  | tStr =>
    rw [hft] at h1 h2
    cases htwo : two fld.name <;> rw [htwo] at h2 <;>
      first
        | exact Bool.noConfusion h2
        | exact ⟨rfl, h2⟩
        | exact ⟨rfl, h1⟩
  | tStrOpt =>
    rw [hft] at h1 h2
    cases htwo : two fld.name <;> rw [htwo] at h2 <;>
      first
        | exact Bool.noConfusion h2
        | exact ⟨rfl, h2⟩
        | exact ⟨rfl, h1⟩
  | tEnum permitted =>
    rw [hft] at h1 h2
    cases htwo : two fld.name <;> rw [htwo] at h2 <;>
      first
        | exact Bool.noConfusion h2
        | exact ⟨rfl, h2⟩
        | exact ⟨rfl, h1⟩
  | tTupleStr =>
    rw [hft] at h1 h2
    cases htwo : two fld.name <;> rw [htwo] at h2 hh2 <;>
      try exact Bool.noConfusion h2
    case tuple xs =>
      cases hone : one fld.name <;> rw [hone] at h1 hh1 <;>
        try exact Bool.noConfusion h1
      case tuple ys =>
        have hhash : pyHashableList (xs ++ pyElems (PyValue.tuple ys)) =
            true := by
          rw [show pyElems (PyValue.tuple ys) = ys from rfl,
            pyHashableList_append]
          have hx : pyHashableList xs = true := hh2
          have hy : pyHashableList ys = true := hh1
          rw [hx, hy]
          rfl
        show (pyFromKeys (xs ++ pyElems (PyValue.tuple ys))).map
            PyValue.tuple = Option.some
              (((pyFromKeys (xs ++ pyElems (PyValue.tuple ys))).map
                PyValue.tuple).getD PyValue.none) ∧
          typeOK FieldType.tTupleStr
            (((pyFromKeys (xs ++ pyElems (PyValue.tuple ys))).map
              PyValue.tuple).getD PyValue.none) = true
        rw [pyFromKeys, if_pos hhash]
        refine ⟨rfl, ?_⟩
        show typeOK FieldType.tTupleStr
          (PyValue.tuple (pyDedup (xs ++ pyElems (PyValue.tuple ys)))) = true
        rw [typeOK, List.all_eq_true] at h1 h2 ⊢
        intro a ha
        rcases List.mem_append.mp
          ((mem_pyDedup a (xs ++ pyElems (PyValue.tuple ys))).mp ha) with
          h3 | h3
        · exact h2 a h3
        · exact h1 a h3
  | tChannels =>
    rw [hft] at h1 h2
    cases htwo : two fld.name <;> rw [htwo] at h2 hh2 <;>
      try exact Bool.noConfusion h2
    case tuple xs =>
      cases hone : one fld.name <;> rw [hone] at h1 hh1 <;>
        try exact Bool.noConfusion h1
      case tuple ys =>
        have hhash : pyHashableList (xs ++ pyElems (PyValue.tuple ys)) =
            true := by
          rw [show pyElems (PyValue.tuple ys) = ys from rfl,
            pyHashableList_append]
          have hx : pyHashableList xs = true := hh2
          have hy : pyHashableList ys = true := hh1
          rw [hx, hy]
          rfl
        show (pyFromKeys (xs ++ pyElems (PyValue.tuple ys))).map
            PyValue.tuple = Option.some
              (((pyFromKeys (xs ++ pyElems (PyValue.tuple ys))).map
                PyValue.tuple).getD PyValue.none) ∧
          typeOK FieldType.tChannels
            (((pyFromKeys (xs ++ pyElems (PyValue.tuple ys))).map
              PyValue.tuple).getD PyValue.none) = true
        rw [pyFromKeys, if_pos hhash]
        refine ⟨rfl, ?_⟩
        show typeOK FieldType.tChannels
          (PyValue.tuple (pyDedup (xs ++ pyElems (PyValue.tuple ys)))) = true
        rw [typeOK, List.all_eq_true] at h1 h2 ⊢
        intro a ha
        rcases List.mem_append.mp
          ((mem_pyDedup a (xs ++ pyElems (PyValue.tuple ys))).mp ha) with
          h3 | h3
        · exact h2 a h3
        · exact h1 a h3
  | tDictStr =>
    rw [hft] at h1 h2
    cases htwo : two fld.name <;> rw [htwo] at h2 <;>
      try exact Bool.noConfusion h2
    case dict m2 =>
      cases hone : one fld.name <;> rw [hone] at h1 <;>
        try exact Bool.noConfusion h1
      case dict m1 =>
        refine ⟨rfl, ?_⟩
        show typeOK FieldType.tDictStr
          (PyValue.dict (pyDictUpdate m2 m1)) = true
        rw [typeOK, List.all_eq_true] at h1 h2 ⊢
        intro kv hkv
        rcases mem_pyDictUpdate kv m1 m2 hkv with h3 | h3
        · exact h2 kv h3
        · exact h1 kv h3
  | tDictTupleStr =>
    rw [hft] at h1 h2
    cases htwo : two fld.name <;> rw [htwo] at h2 <;>
      try exact Bool.noConfusion h2
    case dict m2 =>
      cases hone : one fld.name <;> rw [hone] at h1 <;>
        try exact Bool.noConfusion h1
      case dict m1 =>
        refine ⟨rfl, ?_⟩
        show typeOK FieldType.tDictTupleStr
          (PyValue.dict (pyDictUpdate m2 m1)) = true
        rw [typeOK, List.all_eq_true] at h1 h2 ⊢
        intro kv hkv
        rcases mem_pyDictUpdate kv m1 m2 hkv with h3 | h3
        · exact h2 kv h3
        · exact h1 kv h3
  | tDictAny =>
    rw [hft] at h1 h2
    cases htwo : two fld.name <;> rw [htwo] at h2 <;>
      first
        | exact Bool.noConfusion h2
        | exact ⟨rfl, rfl⟩

theorem mergeValues_some (one two : Config)
    (h : ∀ fld ∈ condarcFields,
      mergeFieldValue one two fld =
        Option.some (mergeFieldValueD one two fld)) :
    mergeValues one two = Option.some
      (condarcFields.map
        (fun fld => (fld.name, mergeFieldValueD one two fld))) := by
  rw [mergeValues]
  exact mapM_eq_map _ _ condarcFields (fun fld hm => by rw [h fld hm]; rfl)

theorem validateMatch_ok (mv : List (String × PyValue)) (c : Config)
    (h : validateConfig mv = Except.ok c) :
    (match validateConfig mv with
     | Except.ok c2 => Except.ok c2
     | Except.error errs =>
       Except.error (MergeFailure.validationError errs)) =
      (Except.ok c : Except MergeFailure Config) := by
  rw [h]

theorem mergeFieldValue_ok_all (one two : Config)
    (h1 : wfConfig one = true) (h2 : wfConfig two = true)
    (hh1 : hashableTuples one = true) (hh2 : hashableTuples two = true) :
    ∀ fld ∈ condarcFields,
      mergeFieldValue one two fld =
        Option.some (mergeFieldValueD one two fld) ∧
      typeOK fld.ftype (mergeFieldValueD one two fld) = true :=
  fun fld hm => mergeFieldValue_ok one two fld
    (List.all_eq_true.mp h1 fld hm) (List.all_eq_true.mp h2 fld hm)
    (List.all_eq_true.mp hh1 fld hm) (List.all_eq_true.mp hh2 fld hm)

theorem validateErrors_merged (one two : Config)
    (h1 : wfConfig one = true) (h2 : wfConfig two = true)
    (hh1 : hashableTuples one = true) (hh2 : hashableTuples two = true) :
    validateErrors (condarcFields.map
      (fun fld => (fld.name, mergeFieldValueD one two fld))) = [] := by
  apply validateErrors_nil_of_fields
  intro fld hm
  rw [validateField,
    pyLookup_map_field (fun f => mergeFieldValueD one two f) condarcFields
      condarcNames_nodup fld hm]
  show exceptErr (coerceField fld (mergeFieldValueD one two fld)) =
    Option.none
  rw [coerceField_id fld _
    (mergeFieldValue_ok_all one two h1 h2 hh1 hh2 fld hm).2]
  rfl

theorem mergeCondarc_ok (one two : Config)
    (h1 : wfConfig one = true) (h2 : wfConfig two = true)
    (hh1 : hashableTuples one = true) (hh2 : hashableTuples two = true) :
    mergeCondarc one two = Except.ok (configFromRaw
      (condarcFields.map
        (fun fld => (fld.name, mergeFieldValueD one two fld)))) := by
  have hval : validateConfig (condarcFields.map
      (fun fld => (fld.name, mergeFieldValueD one two fld))) =
      Except.ok (configFromRaw (condarcFields.map
        (fun fld => (fld.name, mergeFieldValueD one two fld)))) := by
    rw [validateConfig, if_pos (validateErrors_merged one two h1 h2 hh1 hh2)]
  rw [mergeCondarc, mergeValues_some one two
    (fun fld hm => (mergeFieldValue_ok_all one two h1 h2 hh1 hh2 fld hm).1)]
  exact validateMatch_ok _ _ hval

theorem mergeConfig_at (one two : Config)
    (h1 : wfConfig one = true) (h2 : wfConfig two = true)
    (hh1 : hashableTuples one = true) (hh2 : hashableTuples two = true)
    (fld : SchemaField) (hm : fld ∈ condarcFields) :
    configFromRaw (condarcFields.map
        (fun f => (f.name, mergeFieldValueD one two f))) fld.name =
      mergeFieldValueD one two fld := by
  rw [configFromRaw_at _ fld hm, validateField,
    pyLookup_map_field (fun f => mergeFieldValueD one two f) condarcFields
      condarcNames_nodup fld hm]
  show (match coerceField fld (mergeFieldValueD one two fld) with
        | Except.ok v => v
        | Except.error _ => fld.default) = mergeFieldValueD one two fld
  rw [coerceField_id fld _
    (mergeFieldValue_ok_all one two h1 h2 hh1 hh2 fld hm).2]


/-- C1: evaluating merge_condarc at the failing input: merging the
low-precedence fragment with custom_channels {"a": "1"} into the
high-precedence fragment with custom_channels {"a": "2", "b": "3"}
produces {"a": "1", "b": "3"} — the union keeps both keys, but the
value from the low-precedence side wins the conflicting key "a",
because merge_condarc updates the dict of obj_two with the entries of
obj_one. -/
theorem c1_map_union_low_wins :
    mergeValueAt lowCustom highCustom "custom_channels" =
      Option.some
        (PyValue.dict [("a", PyValue.str "1"), ("b", PyValue.str "3")]) := by
  rfl

/-- C3 counterexample: the high fragment built from an empty raw mapping
does not define always_yes, yet merging it over a low fragment that
explicitly sets always_yes to True yields False (the schema default that
validation filled into the high fragment), not True. -/
theorem c3_counterexample :
    pyLookup ([] : List (String × PyValue)) "always_yes" = Option.none ∧
    mergeValueAt lowAlwaysYes emptyRawConfig "always_yes" =
      Option.some (PyValue.bool false) ∧
    Option.some (PyValue.bool false) ≠
      Option.some (PyValue.bool true) := by
  refine ⟨rfl, by rfl, by decide⟩

/-- C3 (amended): for well-typed fragments whose merge does not raise —
every tuple-valued field holding only hashable elements, so that
dict.fromkeys does not raise TypeError on a mapping-shaped channels
entry — and a scalar override field, merge_condarc assigns the value
from high whenever that value is not None, and the value from low only
when the value in high is None; since validation fills absent fields
with their schema defaults, a high fragment that omits the field
carries the default, and a non-None default replaces the explicitly set
value in low. -/
theorem c3_override_amended (low high : Config)
    (h1 : wfConfig low = true) (h2 : wfConfig high = true)
    (hh1 : hashableTuples low = true) (hh2 : hashableTuples high = true)
    (fld : SchemaField) (hm : fld ∈ condarcFields)
    (hs : scalarFieldType fld.ftype = true) :
    ∃ merged, mergeCondarc low high = Except.ok merged ∧
      merged fld.name =
        (if high fld.name = PyValue.none then low fld.name
         else high fld.name) := by
  refine ⟨_, mergeCondarc_ok low high h1 h2 hh1 hh2, ?_⟩
  rw [mergeConfig_at low high h1 h2 hh1 hh2 fld hm, mergeFieldValueD,
    mergeFieldValue]
  have ht := List.all_eq_true.mp h2 fld hm
  cases hft : fld.ftype <;> rw [hft] at ht hs <;>
    try exact Bool.noConfusion hs
  all_goals
    cases hh : high fld.name <;> rw [hh] at ht <;>
      first | exact Bool.noConfusion ht | rfl

/-- C3 amended, witness: merging the empty-raw high fragment over a low
fragment with always_yes True gives the (default) value of the high fragment,
False, as the amended rule states. -/
theorem c3_override_amended_witness :
    ∃ merged,
      mergeCondarc lowAlwaysYes emptyRawConfig = Except.ok merged ∧
      merged "always_yes" =
        (if emptyRawConfig "always_yes" = PyValue.none then
          lowAlwaysYes "always_yes"
         else emptyRawConfig "always_yes") := by
  exact c3_override_amended lowAlwaysYes emptyRawConfig (by decide)
    (by decide) (by decide) (by decide) alwaysYesField (by decide)
    (by decide)

/-- C5 counterexample: two well-typed (validated) fragments — the
all-defaults fragment and one whose channels tuple holds the
mapping-shaped entry the schema admits — for which merge_condarc does
not return any merged fragment at all: dict.fromkeys raises TypeError
on the unhashable mapping element of the concatenated channels tuple,
so no duplicate-eliminating concatenation is produced. -/
theorem c5_counterexample :
    wfConfig emptyRawConfig = true ∧
    wfConfig highChannelsMapping = true ∧
    highChannelsMapping "channels" = PyValue.tuple
      [PyValue.dict [("http://localhost",
        PyValue.dict [("type", PyValue.str "local")])]] ∧
    mergeCondarc emptyRawConfig highChannelsMapping =
      Except.error MergeFailure.typeError := by
  refine ⟨by decide, by decide, by rfl, by rfl⟩

/-- C5 (amended): for well-typed fragments whose tuple-valued fields
hold only hashable elements, merge_condarc assigns every sequence field
the duplicate-eliminating concatenation of the sequence of high
followed by the sequence of low, first-seen order (typed fragments
always carry a tuple for such a field, a raw side that lacked the field
having received its default at validation); when the concatenation
holds an unhashable mapping-shaped channels entry, merge_condarc
instead raises TypeError. -/
theorem c5_concatenate_amended (low high : Config)
    (h1 : wfConfig low = true) (h2 : wfConfig high = true)
    (hh1 : hashableTuples low = true) (hh2 : hashableTuples high = true)
    (fld : SchemaField) (hm : fld ∈ condarcFields)
    (ht : fld.ftype = FieldType.tTupleStr ∨
      fld.ftype = FieldType.tChannels)
    (xs ys : List PyValue)
    (hhigh : high fld.name = PyValue.tuple xs)
    (hlow : low fld.name = PyValue.tuple ys) :
    ∃ merged, mergeCondarc low high = Except.ok merged ∧
      merged fld.name = PyValue.tuple (pyDedup (xs ++ ys)) := by
  refine ⟨_, mergeCondarc_ok low high h1 h2 hh1 hh2, ?_⟩
  rw [mergeConfig_at low high h1 h2 hh1 hh2 fld hm, mergeFieldValueD,
    mergeFieldValue, hhigh, hlow]
  have hx : pyHashableList xs = true := by
    have := List.all_eq_true.mp hh2 fld hm
    rw [hhigh] at this
    exact this
  have hy : pyHashableList ys = true := by
    have := List.all_eq_true.mp hh1 fld hm
    rw [hlow] at this
    exact this
  have hhash : pyHashableList (xs ++ pyElems (PyValue.tuple ys)) = true := by
    rw [show pyElems (PyValue.tuple ys) = ys from rfl, pyHashableList_append]
    rw [hx, hy]
    rfl
  show ((pyFromKeys (xs ++ pyElems (PyValue.tuple ys))).map
      PyValue.tuple).getD PyValue.none =
    PyValue.tuple (pyDedup (xs ++ ys))
  rw [pyFromKeys, if_pos hhash]
  rfl

/-- C5 amended witness: merging channels ["b", "a"] (high) over
channels ["a"] (low) yields ("b", "a"): the entries of high first,
duplicates removed. -/
theorem c5_concatenate_amended_witness :
    ∃ merged,
      mergeCondarc lowChannelsA highChannelsBA = Except.ok merged ∧
      merged "channels" =
        PyValue.tuple (pyDedup
          ([PyValue.str "b", PyValue.str "a"] ++ [PyValue.str "a"])) := by
  exact c5_concatenate_amended lowChannelsA highChannelsBA (by decide)
    (by decide) (by decide) (by decide) channelsField (by decide)
    (Or.inr rfl) [PyValue.str "b", PyValue.str "a"] [PyValue.str "a"]
    (by rfl) (by rfl)

/-- C2 counterexample: the empty raw mapping is accepted by validation
and defines no field, yet the dict() of the resulting typed fragment carries
the channels field, filled with its schema default ("defaults",) — the
absent field is not left absent at validation time. -/
theorem c2_counterexample :
    validateErrors [] = [] ∧
    pyLookup ([] : List (String × PyValue)) "channels" = Option.none ∧
    pyLookup (configDict (configFromRaw [])) "channels" =
      Option.some (PyValue.tuple [PyValue.str "defaults"]) := by
  refine ⟨by rfl, rfl, by rfl⟩

/-- C2 (amended): for every raw fragment accepted by validation, every
schema field absent from the raw fragment is assigned its
schema-declared default in the resulting typed fragment at validation
time (pydantic fills defaults at construction; defaulting is not
deferred to the end of the source stack). -/
theorem c2_absent_defaulted (raw : List (String × PyValue)) (c : Config)
    (h : validateConfig raw = Except.ok c) (fld : SchemaField)
    (hm : fld ∈ condarcFields)
    (habs : pyLookup raw fld.name = Option.none) :
    c fld.name = fld.default := by
  obtain ⟨hc, -⟩ := validateConfig_ok raw c h
  rw [hc, configFromRaw_at raw fld hm, validateField_default raw fld habs]

/-- C2 amended, witness: a raw fragment setting only always_yes leaves
channels absent, and the typed fragment gives channels its schema
default. -/
theorem c2_absent_defaulted_witness :
    configFromRaw [("always_yes", PyValue.bool true)] "channels" =
      PyValue.tuple [PyValue.str "defaults"] := by
  exact c2_absent_defaulted [("always_yes", PyValue.bool true)]
    (configFromRaw [("always_yes", PyValue.bool true)]) (by rfl)
    channelsField (by decide) (by rfl)

/-- C4 counterexample: reducing the two-file sequence [A, B] with
A = {channels: [defaults], always_yes: true} and B (higher precedence) =
{channels: [conda-forge], always_yes: false} yields
channels == ("conda-forge", "defaults") — the entries of the
higher-precedence file come first — not ("defaults", "conda-forge"). -/
theorem c4_counterexample :
    condarcValueAt (getCondarcObj twoFileData) "channels" =
      Option.some (PyValue.tuple
        [PyValue.str "conda-forge", PyValue.str "defaults"]) ∧
    PyValue.tuple [PyValue.str "conda-forge", PyValue.str "defaults"] ≠
      PyValue.tuple [PyValue.str "defaults", PyValue.str "conda-forge"] := by
  refine ⟨by rfl, by decide⟩

/-- C4 (amended): reducing the two-file sequence [A, B] above via
get_condarc_obj yields channels == ("conda-forge", "defaults"), the
sequence of the higher-precedence file first, per the concatenation
order of merge_condarc, and always_yes == False. -/
theorem c4_two_file_merge :
    condarcValueAt (getCondarcObj twoFileData) "channels" =
      Option.some (PyValue.tuple
        [PyValue.str "conda-forge", PyValue.str "defaults"]) ∧
    condarcValueAt (getCondarcObj twoFileData) "always_yes" =
      Option.some (PyValue.bool false) := by
  refine ⟨by rfl, by rfl⟩

/-- C6 counterexample: a file whose content parses to a bare string is
not swallowed: get_condarc_obj records it as a parse failure and raises
the aggregated CondaConfigError to its caller, naming the file. -/
theorem c6_counterexample :
    readYamlFile (YamlReadOutcome.parsed (RawConfig.strVal "just text")) =
      RawConfig.strVal "just text" ∧
    condarcErrorMsg
        (getCondarcObj [("~/.condarc", RawConfig.strVal "just text")]) =
      Option.some ((configErrorHeader ++ ": " ++ "~/.condarc") ++ "\n\n" ++
        condarcParseErrorSuggestion) := by
  refine ⟨rfl, by rfl⟩

/-- C6 (amended): a file that is unreadable (OSError) or unparseable
(YAMLError) only yields the empty fragment from read_yaml_file, and no
error reaches the caller for it; but content that parses to a bare
string (the not-a-mapping marker) is recorded by get_condarc_obj as a
parse failure and surfaces in the single aggregated CondaConfigError it
raises, whose message names the offending path. -/
theorem c6_parse_failures (data : List (String × RawConfig))
    (p s : String) (hmem : (p, RawConfig.strVal s) ∈ data) :
    (readYamlFile YamlReadOutcome.osError = RawConfig.mapVal [] ∧
     readYamlFile YamlReadOutcome.yamlError = RawConfig.mapVal []) ∧
    getCondarcObj data = Except.error (CondaError.condaConfigError
      (formatAllValidationErrors (collectErrors data))) ∧
    strContains (formatAllValidationErrors (collectErrors data))
      (configErrorHeader ++ ": " ++ p) := by
  have hmem2 := mem_collectErrors_of_strVal data p s hmem
  exact ⟨⟨rfl, rfl⟩,
    getCondarcObj_of_errors data (List.ne_nil_of_mem hmem2),
    strContains_formatAll _ _ hmem2⟩

/-- C6 amended, witness at the concrete bare-string file. -/
theorem c6_parse_failures_witness :
    (readYamlFile YamlReadOutcome.osError = RawConfig.mapVal [] ∧
     readYamlFile YamlReadOutcome.yamlError = RawConfig.mapVal []) ∧
    getCondarcObj [("~/.condarc", RawConfig.strVal "just text")] =
      Except.error (CondaError.condaConfigError
        (formatAllValidationErrors
          (collectErrors [("~/.condarc", RawConfig.strVal "just text")]))) ∧
    strContains
      (formatAllValidationErrors
        (collectErrors [("~/.condarc", RawConfig.strVal "just text")]))
      (configErrorHeader ++ ": " ++ "~/.condarc") := by
  exact c6_parse_failures _ "~/.condarc" "just text"
    (List.mem_cons_self _ _)

set_option maxRecDepth 16384 in
/-- C7: the aggregation contract of get_condarc_obj: (1) whenever any
per-file error was collected, the function raises exactly one
CondaConfigError, after the whole list has been processed, whose message
joins every collected per-file error and the static suggestion, and each
collected error and the suggestion occur in the message; (2) every file
that fails schema validation contributes its formatted per-file error —
which contains the path of that file — to the collected list, wherever
it sits in the sequence; (3) in the concrete three-file scenario with
two invalid files, the message of the single raised error names the
paths of both invalid files and does not contain the content of the
valid file (conda-forge). -/
theorem c7_validation_aggregation :
    (∀ data, collectErrors data ≠ [] →
      getCondarcObj data = Except.error (CondaError.condaConfigError
        (formatAllValidationErrors (collectErrors data))) ∧
      (∀ e ∈ collectErrors data,
        strContains (formatAllValidationErrors (collectErrors data)) e) ∧
      strContains (formatAllValidationErrors (collectErrors data))
        condarcParseErrorSuggestion) ∧
    (∀ data p m errs, (p, RawConfig.mapVal m) ∈ data →
      validateConfig (remapAliases m) = Except.error errs →
      formatValidationError errs p ∈ collectErrors data ∧
      strContains (formatValidationError errs p) p) ∧
    (condarcErrorMsg (getCondarcObj threeFileData) =
      Option.some
        (formatAllValidationErrors (collectErrors threeFileData)) ∧
     strContains (formatAllValidationErrors (collectErrors threeFileData))
       "/etc/conda/.condarc" ∧
     strContains (formatAllValidationErrors (collectErrors threeFileData))
       "/tmp/extra.yaml" ∧
     ¬ strContains
       (formatAllValidationErrors (collectErrors threeFileData))
       "conda-forge") := by
  refine ⟨fun data h => ⟨getCondarcObj_of_errors data h,
      fun e he => strContains_formatAll _ e he,
      strContains_formatAll_suggestion _⟩,
    fun data p m errs hmem hv =>
      ⟨mem_collectErrors_of_invalid data p m errs hmem hv,
       strContains_formatValidationError_path errs p⟩,
    by rfl, by decide, by decide, by decide⟩

set_option maxRecDepth 16384 in
/-- C7 witness: the general aggregation part applied to the concrete
three-file scenario, whose collected error list is non-empty. -/
theorem c7_validation_aggregation_witness :
    getCondarcObj threeFileData =
      Except.error (CondaError.condaConfigError
        (formatAllValidationErrors (collectErrors threeFileData))) ∧
    (∀ e ∈ collectErrors threeFileData,
      strContains (formatAllValidationErrors (collectErrors threeFileData))
        e) ∧
    strContains (formatAllValidationErrors (collectErrors threeFileData))
      condarcParseErrorSuggestion := by
  exact c7_validation_aggregation.1 threeFileData (by decide)

/-- C8: reducing an empty sequence of configuration files yields the
all-defaults typed fragment (FileConfigSource._merge returns a plain
CondarcConfig() instead of running the reduction), with every schema
field at its schema-declared default. -/
theorem c8_empty_reduce_defaults (fileParserFn : String → RawConfig) :
    ∃ src, FileConfigSource.make fileParserFn [] = Except.ok src ∧
      ∀ fld ∈ condarcFields, src.parsedData fld.name = fld.default := by
  refine ⟨⟨[], [], configFromRaw []⟩, by rfl, fun fld hm => ?_⟩
  show configFromRaw [] fld.name = fld.default
  rw [configFromRaw_at [] fld hm, validateField_default [] fld rfl]

/-- C8 witness: the empty file list with a fixed parser. -/
theorem c8_empty_reduce_defaults_witness :
    ∃ src,
      FileConfigSource.make (fun _ => RawConfig.mapVal []) [] =
        Except.ok src ∧
      ∀ fld ∈ condarcFields, src.parsedData fld.name = fld.default := by
  exact c8_empty_reduce_defaults _

/-- C9: the override-channels guards of the channels property: (i) when
the CLI supplies a truthy override_channels and
override_channels_enabled resolves falsy, reading channels raises
OperationNotAllowed, whatever channel value is supplied; (ii) when
overriding is enabled but the CLI supplies no channel flag (getattr
yields None), reading channels raises ArgumentError; (iii) when
overriding is enabled and a non-empty channel list is supplied, the
property returns only that list, prefixed by "local" when use_local is
truthy, deduplicated. -/
theorem c9_override_channels_guards :
    (∀ (ctx : Context) (cli : CLIConfigSource) (u v : PyValue),
      ctx.cliSource = Option.some cli →
      ctx.getattr "use_local" = AttrResult.value u →
      truthy (cli.getParameter "override_channels") = true →
      ctx.getattr "override_channels_enabled" = AttrResult.value v →
      truthy v = false →
      ctx.channelsProperty = ChannelsOutcome.operationNotAllowed) ∧
    (∀ (ctx : Context) (cli : CLIConfigSource) (u v : PyValue),
      ctx.cliSource = Option.some cli →
      ctx.getattr "use_local" = AttrResult.value u →
      truthy (cli.getParameter "override_channels") = true →
      ctx.getattr "override_channels_enabled" = AttrResult.value v →
      truthy v = true →
      cli.getParameter "channel" = PyValue.none →
      ctx.channelsProperty = ChannelsOutcome.argumentError) ∧
    (∀ (ctx : Context) (cli : CLIConfigSource) (u v : PyValue)
        (cs : List PyValue),
      ctx.cliSource = Option.some cli →
      ctx.getattr "use_local" = AttrResult.value u →
      truthy (cli.getParameter "override_channels") = true →
      ctx.getattr "override_channels_enabled" = AttrResult.value v →
      truthy v = true →
      cli.getParameter "channel" = PyValue.list cs →
      cs ≠ [] →
      ctx.channelsProperty = ChannelsOutcome.ok
        (pyDedup ((if truthy u then [PyValue.str localChannelName]
          else []) ++ cs))) := by
  refine ⟨?_, ?_, ?_⟩
  · intro ctx cli u v hcli hu hov hoce hv
    rw [Context.channelsProperty, hu, hcli]
    simp [hov, hoce, hv]
  · intro ctx cli u v hcli hu hov hoce hv hch
    rw [Context.channelsProperty, hu, hcli]
    simp [hov, hoce, hv, hch, show truthy PyValue.none = false from rfl]
  · intro ctx cli u v cs hcli hu hov hoce hv hch hcs
    rw [Context.channelsProperty, hu, hcli]
    have htr : truthy (PyValue.list cs) = true := by
      cases cs with
      | nil => exact absurd rfl hcs
      | cons c cs2 => rfl
    simp [hov, hoce, hv, hch, htr, pyElems]

/-- C9 witness: the three guards at concrete contexts: overriding
disabled by the config file; overriding requested without a channel
flag; overriding with use_local and a duplicated channel list. -/
theorem c9_override_channels_guards_witness :
    ctxOverrideDisabled.channelsProperty =
      ChannelsOutcome.operationNotAllowed ∧
    ctxOverrideNoChannel.channelsProperty =
      ChannelsOutcome.argumentError ∧
    ctxOverrideWithChannels.channelsProperty = ChannelsOutcome.ok
      (pyDedup ((if truthy (PyValue.bool true) then
          [PyValue.str localChannelName] else []) ++
        [PyValue.str "conda-forge", PyValue.str "conda-forge"])) := by
  refine ⟨?_, ?_, ?_⟩
  · exact c9_override_channels_guards.1 ctxOverrideDisabled
      ⟨[("override_channels", PyValue.bool true),
        ("channel", PyValue.list [PyValue.str "conda-forge"])]⟩
      (PyValue.bool false) (PyValue.bool false) rfl (by rfl) (by rfl)
      (by rfl) (by rfl)
  · exact c9_override_channels_guards.2.1 ctxOverrideNoChannel
      ⟨[("override_channels", PyValue.bool true)]⟩
      (PyValue.bool false) (PyValue.bool true) rfl (by rfl) (by rfl)
      (by rfl) (by rfl) (by rfl)
  · exact c9_override_channels_guards.2.2 ctxOverrideWithChannels
      ⟨[("override_channels", PyValue.bool true),
        ("channel", PyValue.list
          [PyValue.str "conda-forge", PyValue.str "conda-forge"]),
        ("use_local", PyValue.bool true)]⟩
      (PyValue.bool true) (PyValue.bool true)
      [PyValue.str "conda-forge", PyValue.str "conda-forge"]
      rfl (by rfl) (by rfl) (by rfl) (by rfl) (by rfl) (by decide)

/-- C10 counterexample: a context with use_local resolving True, a CLI
channel flag, and a config file that also declares channels: the
channels property returns ("conda-forge", "defaults", "local") — the
synthetic "local" name is appended after the config-file channel names,
so the returned tuple does not begin with "local". -/
theorem c10_counterexample :
    ctxLocalAppended.getattr "use_local" =
      AttrResult.value (PyValue.bool true) ∧
    ctxLocalAppended.channelsProperty = ChannelsOutcome.ok
      [PyValue.str "conda-forge", PyValue.str "defaults",
       PyValue.str "local"] ∧
    List.head? [PyValue.str "conda-forge", PyValue.str "defaults",
        PyValue.str "local"] ≠
      Option.some (PyValue.str localChannelName) := by
  refine ⟨by rfl, by rfl, by decide⟩

/-- C10 (amended): when use_local resolves truthy and the channels
property returns without raising, the returned tuple contains the
synthetic "local" channel name; it is prepended in the
override-channels branch and in the CLI-channel-without-config-channels
branch, but appended after the configured channel names in the two
branches that consult _get_channel_names. -/
theorem c10_local_always_member (ctx : Context) (u : PyValue)
    (xs : List PyValue)
    (hu : ctx.getattr "use_local" = AttrResult.value u)
    (ht : truthy u = true)
    (hok : ctx.channelsProperty = ChannelsOutcome.ok xs) :
    PyValue.str localChannelName ∈ xs := by
  rw [Context.channelsProperty] at hok
  split at hok
  · exact absurd hok (by simp)
  · rename_i useLocalVal heq
    rw [hu] at heq
    injection heq with heq2
    subst heq2
    split at hok
    · exact absurd hok (by simp)
    · rename_i cli hcli
      simp only [ht, if_true] at hok
      split at hok
      · -- override_channels truthy
        split at hok
        · exact absurd hok (by simp)
        · rename_i oce hoce
          split at hok
          · exact absurd hok (by simp)
          · split at hok
            · exact absurd hok (by simp)
            · have hx := (ChannelsOutcome.ok.injEq _ _).mp hok
              rw [← hx]
              exact (mem_pyDedup _ _).mpr
                (List.mem_append.mpr (Or.inl (List.mem_cons_self _ _)))
      · -- override_channels falsy
        split at hok
        · -- CLI channel truthy
          split at hok
          · exact absurd hok (by simp)
          · rename_i fs hfs
            split at hok
            · have hx := (ChannelsOutcome.ok.injEq _ _).mp hok
              rw [← hx]
              exact (mem_pyDedup _ _).mpr
                (List.mem_append.mpr (Or.inl (List.mem_cons_self _ _)))
            · have hx := (ChannelsOutcome.ok.injEq _ _).mp hok
              rw [← hx]
              exact (mem_pyDedup _ _).mpr
                (List.mem_append.mpr (Or.inr (List.mem_cons_self _ _)))
        · have hx := (ChannelsOutcome.ok.injEq _ _).mp hok
          rw [← hx]
          exact (mem_pyDedup _ _).mpr
            (List.mem_append.mpr (Or.inr (List.mem_cons_self _ _)))

/-- C10 amended, witness: in the counterexample context the returned
tuple contains "local" (at the end). -/
theorem c10_local_always_member_witness :
    PyValue.str localChannelName ∈
      [PyValue.str "conda-forge", PyValue.str "defaults",
       PyValue.str "local"] := by
  exact c10_local_always_member ctxLocalAppended (PyValue.bool true)
    [PyValue.str "conda-forge", PyValue.str "defaults",
     PyValue.str "local"] (by rfl) (by rfl) (by rfl)
